import Mathlib

/-!
Verification development for `scripts/export-lcl-to-csv.py`: a single Python
script that reads configuration from the environment, issues one HTTP GET to a
REST endpoint, decodes the JSON array response, and writes it to a CSV file
with `csv.DictWriter`.

The development shallowly embeds the script and the parts of the Python
standard library it relies on:

* `PyVal` models the Python values produced by `json.loads` (the script's data
  never uses floats, and the JSON model below is restricted to integers);
* `pyStr` / `pyRepr` model Python's `str()` / `repr()` on those values, for
  printable characters (the `\xNN` escapes of `repr` for non-printable
  characters are outside the model);
* `csvRowCh` models the `csv` module's writer with its default dialect
  (delimiter `,`, quote char `"`, doublequote, QUOTE_MINIMAL, line terminator
  CRLF, `None` written as the empty string, a lone empty field quoted);
* `csvStep` / `parseCsv` model the `csv` module's reader automaton on a file
  opened with `newline=''` (blank lines, which the writer never produces for
  nonempty field lists, are skipped rather than yielded as empty rows);
* `jsonLoads` models `json.loads` restricted to null / booleans / integers /
  strings (with the common escapes; `\uXXXX` is not modeled) / arrays /
  objects;
* `runMain` models the script's `main` function, with the network abstracted
  as the outcome of `urllib.request.urlopen`.
-/

set_option maxRecDepth 100000

/-- Model of the Python values that `json.loads` can return for the script's
data: `None`, `bool`, `int`, `str`, `list`, `dict` (string keys, insertion
ordered).  Floats are outside the model. -/
inductive PyVal where
  | noneV : PyVal
  | boolV : Bool → PyVal
  | intV : Int → PyVal
  | strV : String → PyVal
  | listV : List PyVal → PyVal
  | dictV : List (String × PyVal) → PyVal
deriving Repr

/-- Escape one character of a Python string for `repr`, given the chosen
quote character `q`.  Models CPython's behavior on printable characters. -/
def pyEscSeq (q c : Char) : String :=
  if c = '\\' then "\\\\"
  else if c = q then "\\" ++ String.mk [q]
  else if c = '\n' then "\\n"
  else if c = '\r' then "\\r"
  else if c = '\t' then "\\t"
  else String.mk [c]

/-- Model of Python `repr` on a `str`: single quotes, unless the string
contains a single quote and no double quote. -/
def pyStrRepr (s : String) : String :=
  let q : Char := if s.data.contains '\'' && !(s.data.contains '"') then '"' else '\''
  String.mk [q] ++ String.join (s.data.map (pyEscSeq q)) ++ String.mk [q]

mutual

/-- Model of Python `repr` on the modeled values: `None`, `True`/`False`,
decimal integers, quoted strings, `[x, y]` lists, `{k: v}` dicts. -/
def pyRepr : PyVal → String
  | .noneV => "None"
  | .boolV true => "True"
  | .boolV false => "False"
  | .intV n => toString n
  | .strV s => pyStrRepr s
  | .listV xs => "[" ++ pyReprList xs ++ "]"
  | .dictV kvs => "\x7b" ++ pyReprDict kvs ++ "\x7d"

/-- `", "`-separated `repr`s of the elements of a Python list. -/
def pyReprList : List PyVal → String
  | [] => ""
  | [x] => pyRepr x
  | x :: xs => pyRepr x ++ ", " ++ pyReprList xs

/-- `", "`-separated `repr(k): repr(v)` items of a Python dict. -/
def pyReprDict : List (String × PyVal) → String
  | [] => ""
  | [(k, v)] => pyStrRepr k ++ ": " ++ pyRepr v
  | (k, v) :: kvs => pyStrRepr k ++ ": " ++ pyRepr v ++ ", " ++ pyReprDict kvs

end

/-- Model of Python `str()` on the modeled values: identity on strings,
`repr` on containers, `None`/`True`/`False`/decimal otherwise. -/
def pyStr : PyVal → String
  | .strV s => s
  | v => pyRepr v

/-- How the `csv` module's writer renders one cell value: `None` is written
as the empty string, strings as themselves, anything else via `str()`. -/
def csvCell : PyVal → String
  | .noneV => ""
  | v => pyStr v

/-- Characters that force quoting under QUOTE_MINIMAL with the default
dialect: the delimiter, the quote char, CR and LF. -/
def isCsvSpecial (c : Char) : Bool := c = ',' || c = '"' || c = '\r' || c = '\n'

/-- A field must be quoted iff it contains a special character. -/
def needsQuote (cs : List Char) : Bool := cs.any isCsvSpecial

/-- Doubling of quote characters inside a quoted field (doublequote dialect
option). -/
def qesc : List Char → List Char
  | [] => []
  | c :: cs => if c = '"' then '"' :: '"' :: qesc cs else c :: qesc cs

/-- One written CSV field: quoted with doubled quotes when needed, verbatim
otherwise. -/
def csvFieldCh (cs : List Char) : List Char :=
  if needsQuote cs then '"' :: (qesc cs ++ ['"']) else cs

/-- Comma-separated written fields of one row. -/
def csvCells : List (List Char) → List Char
  | [] => []
  | [f] => csvFieldCh f
  | f :: fs => csvFieldCh f ++ ',' :: csvCells fs

/-- One written CSV row, terminated by CRLF.  The `csv` module quotes a lone
empty field so that the row is not an empty line. -/
def csvRowCh (fs : List (List Char)) : List Char :=
  (if fs = [[]] then ['"', '"'] else csvCells fs) ++ ['\r', '\n']

/-- All rows of a table, concatenated. -/
def csvTableCh (tbl : List (List (List Char))) : List Char :=
  (tbl.map csvRowCh).flatten

/-- One written CSV row at the `String` level. -/
def rowStr (fs : List String) : String := ⟨csvRowCh (fs.map String.data)⟩

/-- A whole written CSV file at the `String` level. -/
def writeCsv (tbl : List (List String)) : String :=
  ⟨csvTableCh (tbl.map (fun r => r.map String.data))⟩

/-- States of the `csv` reader automaton (`_csv.c`): start of record, start
of field, inside an unquoted field, inside a quoted field, just after a quote
inside a quoted field, eating the CR/LF run that ends a record. -/
inductive CMode where
  | stR | stF | inF | inQ | qQ | eat
deriving DecidableEq, Repr

/-- Reader state: the field and row being accumulated, the rows already
produced, and the automaton mode. -/
structure CState where
  fld : List Char
  row : List (List Char)
  acc : List (List (List Char))
  m : CMode
deriving DecidableEq, Repr

/-- Is `c` a record terminator character? -/
def isEol (c : Char) : Bool := c = '\r' || c = '\n'

/-- Finish the current field and start the next one. -/
def endFld (s : CState) : CState := ⟨[], s.row ++ [s.fld], s.acc, .stF⟩

/-- Finish the current field and record. -/
def endRec (s : CState) : CState := ⟨[], [], s.acc ++ [s.row ++ [s.fld]], .eat⟩

/-- Dispatch on the first character of a field (shared by the start-of-record
and start-of-field states, which fall through to each other in `_csv.c`). -/
def openFld (s : CState) (c : Char) : CState :=
  if c = '"' then ⟨s.fld, s.row, s.acc, .inQ⟩
  else if c = ',' then endFld s
  else ⟨s.fld ++ [c], s.row, s.acc, .inF⟩

/-- One step of the reader automaton. -/
def csvStep (s : CState) (c : Char) : CState :=
  match s.m with
  | .stR => if isEol c then ⟨s.fld, s.row, s.acc, .eat⟩ else openFld s c
  | .stF => if isEol c then endRec s else openFld s c
  | .inF =>
      if isEol c then endRec s
      else if c = ',' then endFld s
      else ⟨s.fld ++ [c], s.row, s.acc, .inF⟩
  | .inQ => if c = '"' then ⟨s.fld, s.row, s.acc, .qQ⟩ else ⟨s.fld ++ [c], s.row, s.acc, .inQ⟩
  | .qQ =>
      if c = '"' then ⟨s.fld ++ [c], s.row, s.acc, .inQ⟩
      else if c = ',' then endFld s
      else if isEol c then endRec s
      else ⟨s.fld ++ [c], s.row, s.acc, .inF⟩
  | .eat => if isEol c then s else openFld ⟨s.fld, s.row, s.acc, .stR⟩ c

/-- Initial reader state. -/
def csvInitSt : CState := ⟨[], [], [], .stR⟩

/-- End-of-input handling: a pending field/record is flushed (the reader is
not strict), nothing is pending at start of record or after a terminator. -/
def csvFinish (s : CState) : List (List (List Char)) :=
  match s.m with
  | .stR => s.acc
  | .eat => s.acc
  | _ => s.acc ++ [s.row ++ [s.fld]]

/-- Run the reader over a character stream. -/
def parseCsvCh (cs : List Char) : List (List (List Char)) :=
  csvFinish (cs.foldl csvStep csvInitSt)

/-- Run the reader over a `String`, producing `String` fields. -/
def parseCsv (s : String) : List (List String) :=
  (parseCsvCh s.data).map (fun r => r.map String.mk)

/-- Number of CRLF pairs in a character stream; for a file in which every
record ends with CRLF and no cell contains CR or LF, this is the line count. -/
def countCRLF : List Char → Nat
  | '\r' :: '\n' :: rest => countCRLF rest + 1
  | _ :: rest => countCRLF rest
  | [] => 0

/-- Drop JSON whitespace (space, tab, LF, CR). -/
def skipWs (cs : List Char) : List Char :=
  cs.dropWhile (fun c => c = ' ' || c = '\t' || c = '\n' || c = '\r')

/-- Decode one JSON string escape character (after the backslash).
`\uXXXX` is outside the model. -/
def jsonEsc (c : Char) : Option Char :=
  if c = '"' then some '"'
  else if c = '\\' then some '\\'
  else if c = '/' then some '/'
  else if c = 'b' then some (Char.ofNat 8)
  else if c = 'f' then some (Char.ofNat 12)
  else if c = 'n' then some '\n'
  else if c = 'r' then some '\r'
  else if c = 't' then some '\t'
  else none

/-- Parse the body of a JSON string (after the opening quote), returning the
decoded characters and the input after the closing quote.  Raw control
characters are rejected, as by `json.loads` in strict mode. -/
def parseJStrBody : List Char → Option (List Char × List Char)
  | [] => none
  | '"' :: rest => some ([], rest)
  | '\\' :: c :: rest =>
      match jsonEsc c with
      | some d => (parseJStrBody rest).map (fun p => (d :: p.1, p.2))
      | none => none
  | '\\' :: [] => none
  | c :: rest =>
      if c.toNat < 32 then none
      else (parseJStrBody rest).map (fun p => (c :: p.1, p.2))

/-- Decimal value of a digit run. -/
def digitsVal (ds : List Char) : Nat :=
  ds.foldl (fun n c => n * 10 + (c.toNat - 48)) 0

/-- Parse a JSON integer (optional minus, no leading zeros, and no fraction
or exponent: floats are outside the model). -/
def parseJNum (cs : List Char) : Option (PyVal × List Char) :=
  let (neg, cs') := match cs with
    | '-' :: rest => (true, rest)
    | _ => (false, cs)
  let ds := cs'.takeWhile Char.isDigit
  let rest := cs'.dropWhile Char.isDigit
  if ds = [] then none
  else if ds.length > 1 && ds.headI = '0' then none
  else match rest with
    | '.' :: _ => none
    | 'e' :: _ => none
    | 'E' :: _ => none
    | _ =>
        let n : Int := Int.ofNat (digitsVal ds)
        some (.intV (if neg then -n else n), rest)

/-- Insert a key/value pair into a Python dict modeled as an ordered
association list: a duplicate key keeps its original position and takes the
new value. -/
def dictInsert (kvs : List (String × PyVal)) (k : String) (v : PyVal) :
    List (String × PyVal) :=
  if kvs.any (fun kv => kv.1 = k) then
    kvs.map (fun kv => if kv.1 = k then (k, v) else kv)
  else kvs ++ [(k, v)]

mutual

/-- Fueled recursive-descent parser for one JSON value, following
`json.loads` on the modeled fragment.  Returns the value and the rest of the
input. -/
def parseJVal : Nat → List Char → Option (PyVal × List Char)
  | 0, _ => none
  | fuel + 1, cs =>
    match skipWs cs with
    | 'n' :: 'u' :: 'l' :: 'l' :: rest => some (.noneV, rest)
    | 't' :: 'r' :: 'u' :: 'e' :: rest => some (.boolV true, rest)
    | 'f' :: 'a' :: 'l' :: 's' :: 'e' :: rest => some (.boolV false, rest)
    | '"' :: rest => (parseJStrBody rest).map (fun p => (.strV ⟨p.1⟩, p.2))
    | '[' :: rest =>
        (match skipWs rest with
         | ']' :: rest' => some (.listV [], rest')
         | other => parseJArr fuel other [])
    | '\x7b' :: rest =>
        (match skipWs rest with
         | '\x7d' :: rest' => some (.dictV [], rest')
         | other => parseJObj fuel other [])
    | cs' => parseJNum cs'

/-- Parse the elements of a nonempty JSON array, accumulating in order. -/
def parseJArr : Nat → List Char → List PyVal → Option (PyVal × List Char)
  | 0, _, _ => none
  | fuel + 1, cs, acc =>
    match parseJVal fuel cs with
    | none => none
    | some (v, rest) =>
        match skipWs rest with
        | ',' :: rest' => parseJArr fuel rest' (acc ++ [v])
        | ']' :: rest' => some (.listV (acc ++ [v]), rest')
        | _ => none

/-- Parse the members of a nonempty JSON object, accumulating in insertion
order with duplicate keys overwritten in place. -/
def parseJObj : Nat → List Char → List (String × PyVal) →
    Option (PyVal × List Char)
  | 0, _, _ => none
  | fuel + 1, cs, acc =>
    match skipWs cs with
    | '"' :: rest =>
        match parseJStrBody rest with
        | none => none
        | some (k, rest') =>
            match skipWs rest' with
            | ':' :: rest'' =>
                match parseJVal fuel rest'' with
                | none => none
                | some (v, rest''') =>
                    let acc' := dictInsert acc ⟨k⟩ v
                    match skipWs rest''' with
                    | ',' :: r => parseJObj fuel r acc'
                    | '\x7d' :: r => some (.dictV acc', r)
                    | _ => none
            | _ => none
    | _ => none

end

/-- Model of `json.loads` on the modeled JSON fragment: one value, with only
whitespace allowed after it. -/
def jsonLoads (s : String) : Option PyVal :=
  match parseJVal (2 * s.length + 4) s.data with
  | some (v, rest) => if skipWs rest = [] then some v else none
  | none => none

/-- Python truthiness of the modeled values (`if not rows:`). -/
def pyTruthy : PyVal → Bool
  | .noneV => false
  | .boolV b => b
  | .intV n => n != 0
  | .strV s => s != ""
  | .listV xs => !xs.isEmpty
  | .dictV kvs => !kvs.isEmpty

/-- The process environment as read by the script, plus `sys.argv`. -/
structure Env where
  SUPABASE_URL : Option String
  NEXT_PUBLIC_SUPABASE_URL : Option String
  SUPABASE_SERVICE_ROLE_KEY : Option String
  argv : List String

/-- Python truthiness of `os.environ.get`'s result: unset and the empty
string are both falsy. -/
def strTruthy : Option String → Bool
  | none => false
  | some s => s ≠ ""

/-- Python `a or b` on optional strings: `a` when truthy, else `b`. -/
def pyOr (a b : Option String) : Option String := if strTruthy a then a else b

/-- The script's configuration gate:
`supabase_url = env["SUPABASE_URL"] or env["NEXT_PUBLIC_SUPABASE_URL"]`,
`service_key = env["SUPABASE_SERVICE_ROLE_KEY"]`, failing when
`not supabase_url or not service_key`. -/
def configOk (e : Env) : Option (String × String) :=
  let u := pyOr e.SUPABASE_URL e.NEXT_PUBLIC_SUPABASE_URL
  let k := e.SUPABASE_SERVICE_ROLE_KEY
  if strTruthy u && strTruthy k then some (u.getD "", k.getD "") else none

/-- Split a URL at the first `"://"`, returning the scheme part and the rest. -/
def splitScheme : List Char → Option (List Char × List Char)
  | [] => none
  | c :: rest =>
      if c = ':' then
        match rest with
        | '/' :: '/' :: r2 => some ([], r2)
        | _ => (splitScheme rest).map (fun p => (c :: p.1, p.2))
      else (splitScheme rest).map (fun p => (c :: p.1, p.2))

/-- Model of `urllib.parse.urljoin(base, path)` for an absolute-path `path`:
the scheme and network location of `base` followed by `path`; a base without
a scheme yields `path` itself. -/
def urljoinAbsPath (base path : String) : String :=
  match splitScheme base.data with
  | some (scheme, rest) =>
      (⟨scheme⟩ : String) ++ "://" ++ (⟨rest.takeWhile (fun c => c ≠ '/')⟩ : String) ++ path
  | none => path

/-- Uppercase hexadecimal digit. -/
def hexDig (n : Nat) : Char :=
  if n < 10 then Char.ofNat (48 + n) else Char.ofNat (55 + n)

/-- Model of `urllib.parse.quote_plus` on one character: ASCII alphanumerics
and `_.-~` kept, space to `+`, anything else percent-encoded (the model
covers single-byte code points; the script's parameters are ASCII). -/
def quotePlusChar (c : Char) : List Char :=
  if c.isAlphanum || c = '_' || c = '.' || c = '-' || c = '~' then [c]
  else if c = ' ' then ['+']
  else ['%', hexDig (c.toNat / 16 % 16), hexDig (c.toNat % 16)]

/-- Model of `urllib.parse.quote_plus` on a string. -/
def quotePlus (s : String) : String := ⟨(s.data.map quotePlusChar).flatten⟩

/-- Model of `urllib.parse.urlencode` on a list of already-stringified
parameters. -/
def urlencode (ps : List (String × String)) : String :=
  String.intercalate "&" (ps.map (fun p => quotePlus p.1 ++ "=" ++ quotePlus p.2))

/-- The `select` parameter value, as the single literal in the script. -/
def selectParam : String :=
  "clause_id,clause_type,category,standard_text,plain_english_summary,risk_level,is_required,version,tags,metadata,active,created_at,updated_at"

/-- The query parameters of the request; the `limit` value is the integer
2000 converted by `str()` inside `urlencode`. -/
def queryParams : List (String × String) :=
  [("select", selectParam), ("limit", pyStr (.intV 2000))]

/-- The request `urllib.request.Request` is built with (data is `None`, so
the method is GET). -/
structure HttpRequest where
  method : String
  url : String
  headers : List (String × String)
deriving Repr, DecidableEq

/-- The request the script builds for a given base URL and service key. -/
def buildRequest (base key : String) : HttpRequest :=
  { method := "GET"
    url := urljoinAbsPath base "/rest/v1/legal_clause_library" ++ "?" ++ urlencode queryParams
    headers :=
      [("apikey", key),
       ("Authorization", "Bearer " ++ key),
       ("Accept", "application/json"),
       ("Range-Unit", "items"),
       ("Range", "0-1999")] }

/-- The outcome of `urllib.request.urlopen` on the request, abstracting the
network: a decoded 2xx body, an `HTTPError` with status code and body, or any
other exception with its message. -/
inductive NetResult where
  | ok : String → NetResult
  | httpErr : Nat → String → NetResult
  | transportErr : String → NetResult

/-- The observable outcome of one run of the script: `exit1` is
`sys.exit(1)` after a diagnostic on the error stream with no output file
touched; `crashed` is an uncaught exception (non-zero exit, no success
summary) together with the contents of the output file if it was created;
`done` is exit 0 with the file contents and the stdout summary. -/
inductive Outcome where
  | exit1 : String → Outcome
  | crashed : String → Option String → Outcome
  | done : String → String → Outcome
deriving Repr, DecidableEq

/-- Python `rows[0]` on the modeled values. -/
def pyIndexZero : PyVal → Except String PyVal
  | .listV (x :: _) => .ok x
  | .listV [] => .error "IndexError: list index out of range"
  | .strV s =>
      match s.data with
      | c :: _ => .ok (.strV ⟨[c]⟩)
      | [] => .error "IndexError: string index out of range"
  | .dictV _ => .error "KeyError: 0"
  | .intV _ => .error "TypeError: int object is not subscriptable"
  | .boolV _ => .error "TypeError: bool object is not subscriptable"
  | .noneV => .error "TypeError: NoneType object is not subscriptable"

/-- Python `list(x.keys())` on the modeled values. -/
def pyKeys : PyVal → Except String (List String)
  | .dictV kvs => .ok (kvs.map Prod.fst)
  | _ => .error "AttributeError: object has no attribute keys"

/-- Python iteration over the modeled values, as `writer.writerows` does. -/
def pyIter : PyVal → Except String (List PyVal)
  | .listV xs => .ok xs
  | .strV s => .ok (s.data.map (fun c => .strV ⟨[c]⟩))
  | .dictV kvs => .ok (kvs.map (fun kv => .strV kv.1))
  | _ => .error "TypeError: object is not iterable"

/-- First binding of a key in a Python dict modeled as an association list. -/
def assocGet (kvs : List (String × PyVal)) (k : String) : Option PyVal :=
  (kvs.find? (fun kv => kv.1 = k)).map Prod.snd

/-- One cell of a data row: `rowdict.get(key, '')` rendered by the writer. -/
def cellOf (kvs : List (String × PyVal)) (k : String) : String :=
  match assocGet kvs k with
  | some v => csvCell v
  | none => ""

/-- `writer.writerows(rows)`, accumulating the file contents written so far:
a row dict containing a key outside `fieldnames` raises `ValueError`
(`extrasaction='raise'`, the `DictWriter` default), a non-dict row raises
`AttributeError`; an error carries the contents already written. -/
def writeRowsLoop (fieldnames : List String) :
    List PyVal → String → Except (String × String) String
  | [], acc => .ok acc
  | .dictV kvs :: rest, acc =>
      if kvs.any (fun kv => !(fieldnames.contains kv.1)) then
        .error ("ValueError: dict contains fields not in fieldnames", acc)
      else
        writeRowsLoop fieldnames rest (acc ++ rowStr (fieldnames.map (cellOf kvs)))
  | _ :: _, acc => .error ("AttributeError: object has no attribute keys", acc)

/-- Model of the script's `main`: configuration gate, request construction,
response handling, JSON decoding, emptiness check, and CSV writing. -/
def runMain (e : Env) (net : NetResult) : Outcome :=
  match configOk e with
  | none => .exit1 "Missing SUPABASE_URL or SUPABASE_SERVICE_ROLE_KEY in env"
  | some (url, key) =>
    let outPath := match e.argv.get? 1 with
      | some p => p
      | none => "lcl-export.csv"
    let _req := buildRequest url key
    match net with
    | .transportErr m => .exit1 ("Request failed: " ++ m)
    | .httpErr code body => .exit1 ("HTTP error " ++ toString code ++ ": " ++ body)
    | .ok body =>
      match jsonLoads body with
      | none => .exit1 "Failed to parse JSON: JSONDecodeError"
      | some rows =>
        if !pyTruthy rows then .exit1 "No rows returned."
        else
          match pyIndexZero rows with
          | .error exn => .crashed exn none
          | .ok first =>
            match pyKeys first with
            | .error exn => .crashed exn none
            | .ok fieldnames =>
              let headerLine := rowStr fieldnames
              match pyIter rows with
              | .error exn => .crashed exn (some headerLine)
              | .ok items =>
                match writeRowsLoop fieldnames items headerLine with
                | .error (exn, sofar) => .crashed exn (some sofar)
                | .ok content =>
                    .done content
                      ("✅ Exported " ++ toString items.length ++ " clauses to " ++ outPath)

/-- Value of one hexadecimal digit character, if any. -/
def pctHex (c : Char) : Option Nat :=
  if '0' ≤ c ∧ c ≤ '9' then some (c.toNat - 48)
  else if 'A' ≤ c ∧ c ≤ 'F' then some (c.toNat - 55)
  else if 'a' ≤ c ∧ c ≤ 'f' then some (c.toNat - 87)
  else none

/-- Percent-decoding of a query component, with `+` decoded to a space. -/
def pctDecode : List Char → List Char
  | '%' :: h :: l :: rest =>
      match pctHex h, pctHex l with
      | some a, some b => Char.ofNat (16 * a + b) :: pctDecode rest
      | _, _ => '%' :: pctDecode (h :: l :: rest)
  | '+' :: rest => ' ' :: pctDecode rest
  | c :: rest => c :: pctDecode rest
  | [] => []

/-- Split a character list on a separator character. -/
def splitOnCh (sep : Char) : List Char → List (List Char)
  | [] => [[]]
  | c :: rest =>
      if c = sep then [] :: splitOnCh sep rest
      else
        match splitOnCh sep rest with
        | [] => [[c]]
        | g :: gs => (c :: g) :: gs

/-- Decode an `application/x-www-form-urlencoded` query string back into its
key/value pairs (each pair split at its first `=`). -/
def decodeQuery (q : String) : List (String × String) :=
  (splitOnCh '&' q.data).map (fun kv =>
    ((⟨pctDecode (kv.takeWhile (fun c => c ≠ '='))⟩ : String),
     (⟨pctDecode ((kv.dropWhile (fun c => c ≠ '=')).drop 1)⟩ : String)))

/-- The 13 field names the spec says the `select` parameter lists, in the
stated order. -/
def selectFields : List String :=
  ["clause_id", "clause_type", "category", "standard_text",
   "plain_english_summary", "risk_level", "is_required", "version",
   "tags", "metadata", "active", "created_at", "updated_at"]

/-- Modelled from the spec: the "JSON scalar representation" of a field
value, against which the spec's round-trip property compares the re-parsed
CSV cells — `null`, `true`, `false`, decimal integers, and for a JSON string
its character content. -/
def jsonScalarRepr : PyVal → String
  | .noneV => "null"
  | .boolV true => "true"
  | .boolV false => "false"
  | .intV n => toString n
  | .strV s => s
  | .listV _ => "[array]"
  | .dictV _ => "\x7bobject\x7d"

mutual

/-- Modelled from the spec: a "JSON text representation" of a value, as the
remote service would serialize it (`json.dumps` separators). -/
def jsonTextRepr : PyVal → String
  | .noneV => "null"
  | .boolV true => "true"
  | .boolV false => "false"
  | .intV n => toString n
  | .strV s => "\"" ++ s ++ "\""
  | .listV xs => "[" ++ jsonTextReprList xs ++ "]"
  | .dictV kvs => "\x7b" ++ jsonTextReprDict kvs ++ "\x7d"

/-- `", "`-separated JSON texts of array elements. -/
def jsonTextReprList : List PyVal → String
  | [] => ""
  | [x] => jsonTextRepr x
  | x :: xs => jsonTextRepr x ++ ", " ++ jsonTextReprList xs

/-- `", "`-separated JSON texts of object members. -/
def jsonTextReprDict : List (String × PyVal) → String
  | [] => ""
  | [(k, v)] => "\"" ++ k ++ "\": " ++ jsonTextRepr v
  | (k, v) :: kvs => "\"" ++ k ++ "\": " ++ jsonTextRepr v ++ ", " ++ jsonTextReprDict kvs

end

/-- The mode the reader is in right after consuming one written field from
the start-of-field state. -/
def fieldEndMode (s : List Char) : CMode :=
  if needsQuote s then .qQ else if s = [] then .stF else .inF

/-- The contents of the output file produced by a run, if the file was
created. -/
def outFile : Outcome → Option String
  | .exit1 _ => none
  | .crashed _ f => f
  | .done f _ => some f

/-- The file contents carried by a `writeRowsLoop` result, whether it
finished or raised. -/
def loopOut : Except (String × String) String → String
  | .ok c => c
  | .error p => p.2

/-- Is the value a Python list or dict (a JSON array or object)? -/
def isContainer : PyVal → Bool
  | .listV _ => true
  | .dictV _ => true
  | _ => false

/-- Is the value a nonempty Python list whose first element is a dict? -/
def headIsDict : PyVal → Bool
  | .listV (.dictV _ :: _) => true
  | _ => false

/-- Is the value a Python dict? -/
def isDict : PyVal → Bool
  | .dictV _ => true
  | _ => false

/-- Is the value a Python list all of whose elements are dicts (a JSON array
of objects)? -/
def isArrayOfDicts : PyVal → Bool
  | .listV xs => xs.all isDict
  | _ => false

/-- A concrete valid environment used to instantiate the theorems below. -/
def envW : Env :=
  ⟨some "https://demo.supabase.co", none, some "servicekey", ["export-lcl-to-csv.py"]⟩

theorem String.mkData (s : String) : String.mk s.data = s := rfl

theorem notSpecial (c : Char) (h : isCsvSpecial c = false) :
    c ≠ ',' ∧ c ≠ '"' ∧ isEol c = false := by
  simp only [isCsvSpecial, Bool.or_eq_false_iff, decide_eq_false_iff_not] at h
  simp only [isEol, Bool.or_eq_false_iff, decide_eq_false_iff_not]
  exact ⟨h.1.1.1, h.1.1.2, h.1.2, h.2⟩

theorem run_plain (cs : List Char) (h : ∀ c ∈ cs, isCsvSpecial c = false) :
    ∀ f row acc, List.foldl csvStep ⟨f, row, acc, .inF⟩ cs = ⟨f ++ cs, row, acc, .inF⟩ := by
  induction cs with
  | nil => intro f row acc; simp
  | cons c cs ih =>
    intro f row acc
    obtain ⟨h1, h2, h3⟩ := notSpecial c (h c (by simp))
    rw [List.foldl_cons]
    have hstep : csvStep ⟨f, row, acc, .inF⟩ c = ⟨f ++ [c], row, acc, .inF⟩ := by
      simp [csvStep, h1, h2, h3]
    rw [hstep, ih (fun d hd => h d (by simp [hd]))]
    simp

theorem run_qesc (cs : List Char) :
    ∀ f row acc, List.foldl csvStep ⟨f, row, acc, .inQ⟩ (qesc cs) = ⟨f ++ cs, row, acc, .inQ⟩ := by
  induction cs with
  | nil => intro f row acc; simp [qesc]
  | cons c cs ih =>
    intro f row acc
    by_cases hc : c = '"'
    · subst hc
      show List.foldl csvStep _ ('"' :: '"' :: qesc cs) = _
      rw [List.foldl_cons, List.foldl_cons]
      have h1 : csvStep ⟨f, row, acc, .inQ⟩ '"' = ⟨f, row, acc, .qQ⟩ := by simp [csvStep]
      have h2 : csvStep ⟨f, row, acc, .qQ⟩ '"' = ⟨f ++ ['"'], row, acc, .inQ⟩ := by
        simp [csvStep]
      rw [h1, h2, ih]
      simp
    · show List.foldl csvStep _ (qesc (c :: cs)) = _
      have : qesc (c :: cs) = c :: qesc cs := by simp [qesc, hc]
      rw [this, List.foldl_cons]
      have h1 : csvStep ⟨f, row, acc, .inQ⟩ c = ⟨f ++ [c], row, acc, .inQ⟩ := by
        simp [csvStep, hc]
      rw [h1, ih]
      simp

theorem run_field (s : List Char) (row : List (List Char)) (acc : List (List (List Char))) :
    List.foldl csvStep ⟨[], row, acc, .stF⟩ (csvFieldCh s) = ⟨s, row, acc, fieldEndMode s⟩ := by
  by_cases hq : needsQuote s = true
  · have : csvFieldCh s = '"' :: (qesc s ++ ['"']) := by simp [csvFieldCh, hq]
    rw [this, List.foldl_cons]
    have h1 : csvStep ⟨[], row, acc, .stF⟩ '"' = ⟨[], row, acc, .inQ⟩ := by
      simp [csvStep, isEol, openFld]
    rw [h1, List.foldl_append, run_qesc, List.foldl_cons]
    have h2 : csvStep ⟨[] ++ s, row, acc, .inQ⟩ '"' = ⟨[] ++ s, row, acc, .qQ⟩ := by
      simp [csvStep]
    rw [h2]
    simp [fieldEndMode, hq]
  · have hq' : needsQuote s = false := by simpa using hq
    have hall : ∀ c ∈ s, isCsvSpecial c = false := by
      simpa [needsQuote, List.any_eq_false] using hq'
    match s with
    | [] =>
      simp [csvFieldCh, needsQuote, fieldEndMode]
    | c :: cs =>
      have : csvFieldCh (c :: cs) = c :: cs := by simp [csvFieldCh, hq']
      rw [this, List.foldl_cons]
      obtain ⟨h1, h2, h3⟩ := notSpecial c (hall c (by simp))
      have hstep : csvStep ⟨[], row, acc, .stF⟩ c = ⟨[c], row, acc, .inF⟩ := by
        simp [csvStep, openFld, h1, h2, h3]
      rw [hstep, run_plain cs (fun d hd => hall d (by simp [hd]))]
      simp [fieldEndMode, hq']

theorem step_sep_comma (s : List Char) (row : List (List Char)) (acc : List (List (List Char))) :
    csvStep ⟨s, row, acc, fieldEndMode s⟩ ',' = ⟨[], row ++ [s], acc, .stF⟩ := by
  unfold fieldEndMode
  by_cases hq : needsQuote s = true
  · simp [hq, csvStep, endFld]
  · by_cases hs : s = []
    · subst hs
      simp [hq, csvStep, isEol, openFld, endFld, needsQuote]
    · simp [hq, hs, csvStep, isEol, endFld]

theorem step_sep_cr (s : List Char) (row : List (List Char)) (acc : List (List (List Char))) :
    csvStep ⟨s, row, acc, fieldEndMode s⟩ '\r' = ⟨[], [], acc ++ [row ++ [s]], .eat⟩ := by
  unfold fieldEndMode
  by_cases hq : needsQuote s = true
  · simp [hq, csvStep, isEol, endRec]
  · by_cases hs : s = []
    · subst hs
      simp [hq, csvStep, isEol, endRec, needsQuote]
    · simp [hq, hs, csvStep, isEol, endRec]

theorem step_eat_eol (c : Char) (hc : isEol c = true) (st : CState) (hm : st.m = .eat) :
    csvStep st c = st := by
  cases st with
  | mk f row acc m => subst hm; simp [csvStep, hc]

theorem run_cells (fs : List (List Char)) (hfs : fs ≠ []) :
    ∀ (row : List (List Char)) (acc : List (List (List Char))) (rest : List Char),
    List.foldl csvStep ⟨[], row, acc, .stF⟩ (csvCells fs ++ ('\r' :: '\n' :: rest)) =
    List.foldl csvStep ⟨[], [], acc ++ [row ++ fs], .eat⟩ rest := by
  induction fs with
  | nil => exact absurd rfl hfs
  | cons f fs ih =>
    intro row acc rest
    match fs with
    | [] =>
      have : csvCells [f] = csvFieldCh f := by simp [csvCells]
      rw [this, List.foldl_append, run_field, List.foldl_cons, step_sep_cr, List.foldl_cons]
      rw [step_eat_eol '\n' (by simp [isEol]) _ rfl]
    | g :: gs =>
      have : csvCells (f :: g :: gs) = csvFieldCh f ++ ',' :: csvCells (g :: gs) := by
        simp [csvCells]
      rw [this]
      have assoc : (csvFieldCh f ++ ',' :: csvCells (g :: gs)) ++ ('\r' :: '\n' :: rest)
          = csvFieldCh f ++ (',' :: (csvCells (g :: gs) ++ ('\r' :: '\n' :: rest))) := by
        simp
      rw [assoc, List.foldl_append, run_field, List.foldl_cons, step_sep_comma]
      rw [ih (by simp) (row ++ [f]) acc rest]
      simp

theorem run_row (fs : List (List Char)) (hfs : fs ≠ []) (acc : List (List (List Char)))
    (rest : List Char) :
    List.foldl csvStep ⟨[], [], acc, .stF⟩ (csvRowCh fs ++ rest) =
    List.foldl csvStep ⟨[], [], acc ++ [fs], .eat⟩ rest := by
  by_cases hsp : fs = [[]]
  · subst hsp
    show List.foldl csvStep _ ((['"', '"'] ++ ['\r', '\n']) ++ rest) = _
    have : (['"', '"'] ++ ['\r', '\n']) ++ rest = '"' :: '"' :: '\r' :: '\n' :: rest := by simp
    rw [this, List.foldl_cons, List.foldl_cons, List.foldl_cons, List.foldl_cons]
    have h1 : csvStep ⟨[], [], acc, .stF⟩ '"' = ⟨[], [], acc, .inQ⟩ := by
      simp [csvStep, isEol, openFld]
    have h2 : csvStep ⟨[], [], acc, .inQ⟩ '"' = ⟨[], [], acc, .qQ⟩ := by
      simp [csvStep]
    have h3 : csvStep ⟨[], [], acc, .qQ⟩ '\r' = ⟨[], [], acc ++ [[([] : List Char)]], .eat⟩ := by
      simp [csvStep, isEol, endRec]
    rw [h1, h2, h3, step_eat_eol '\n' (by simp [isEol]) _ rfl]
  · have : csvRowCh fs = csvCells fs ++ ['\r', '\n'] := by simp [csvRowCh, hsp]
    rw [this]
    have assoc : (csvCells fs ++ ['\r', '\n']) ++ rest
        = csvCells fs ++ ('\r' :: '\n' :: rest) := by simp
    rw [assoc, run_cells fs hfs]
    simp

theorem openFld_mode (f : List Char) (row : List (List Char)) (acc : List (List (List Char)))
    (m m' : CMode) (c : Char) :
    openFld ⟨f, row, acc, m⟩ c = openFld ⟨f, row, acc, m'⟩ c := by
  simp [openFld, endFld]

theorem run_stR_vs_stF (c : Char) (hc : isEol c = false) (acc : List (List (List Char)))
    (cs : List Char) :
    List.foldl csvStep ⟨[], [], acc, .stR⟩ (c :: cs) =
    List.foldl csvStep ⟨[], [], acc, .stF⟩ (c :: cs) := by
  rw [List.foldl_cons, List.foldl_cons]
  have h1 : csvStep ⟨[], [], acc, .stR⟩ c = openFld ⟨[], [], acc, .stR⟩ c := by
    simp [csvStep, hc]
  have h2 : csvStep ⟨[], [], acc, .stF⟩ c = openFld ⟨[], [], acc, .stF⟩ c := by
    simp [csvStep, hc]
  rw [h1, h2, openFld_mode _ _ _ .stR .stF]

theorem run_eat_vs_stR (cs : List Char) :
    ∀ acc, csvFinish (List.foldl csvStep ⟨[], [], acc, .eat⟩ cs) =
      csvFinish (List.foldl csvStep ⟨[], [], acc, .stR⟩ cs) := by
  induction cs with
  | nil => intro acc; simp [csvFinish]
  | cons c cs ih =>
    intro acc
    by_cases hc : isEol c = true
    · rw [List.foldl_cons, List.foldl_cons]
      have h1 : csvStep ⟨[], [], acc, .eat⟩ c = ⟨[], [], acc, .eat⟩ := by simp [csvStep, hc]
      have h2 : csvStep ⟨[], [], acc, .stR⟩ c = ⟨[], [], acc, .eat⟩ := by simp [csvStep, hc]
      rw [h1, h2]
    · have hc' : isEol c = false := by simpa using hc
      rw [List.foldl_cons, List.foldl_cons]
      have h1 : csvStep ⟨[], [], acc, .eat⟩ c = openFld ⟨[], [], acc, .stR⟩ c := by
        simp [csvStep, hc']
      have h2 : csvStep ⟨[], [], acc, .stR⟩ c = openFld ⟨[], [], acc, .stR⟩ c := by
        simp [csvStep, hc']
      rw [h1, h2]

theorem csvFieldCh_cons_head (c : Char) (cs tail : List Char) :
    ∃ d ds, csvFieldCh (c :: cs) ++ tail = d :: ds ∧ isEol d = false := by
  by_cases hq : needsQuote (c :: cs) = true
  · exact ⟨'"', qesc (c :: cs) ++ ['"'] ++ tail, by simp [csvFieldCh, hq], by simp [isEol]⟩
  · have hq' : needsQuote (c :: cs) = false := by simpa using hq
    have hcs : isCsvSpecial c = false := by
      simp [needsQuote] at hq'
      exact hq'.1
    exact ⟨c, cs ++ tail, by simp [csvFieldCh, hq', needsQuote, hcs,
      (by simpa [needsQuote] using hq' : (c :: cs).any isCsvSpecial = false)],
      (notSpecial c hcs).2.2⟩

theorem csvRowCh_head (fs : List (List Char)) (hfs : fs ≠ []) :
    ∃ c cs, csvRowCh fs = c :: cs ∧ isEol c = false := by
  by_cases hsp : fs = [[]]
  · subst hsp
    exact ⟨'"', ['"', '\r', '\n'], rfl, by simp [isEol]⟩
  · have hrow : csvRowCh fs = csvCells fs ++ ['\r', '\n'] := by simp [csvRowCh, hsp]
    match fs with
    | [] => exact absurd rfl hfs
    | [f] =>
      match f with
      | [] => exact absurd rfl hsp
      | c :: cs =>
        obtain ⟨d, ds, hd, hne⟩ := csvFieldCh_cons_head c cs ['\r', '\n']
        refine ⟨d, ds, ?_, hne⟩
        rw [hrow]
        simpa [csvCells] using hd
    | f :: g :: gs =>
      have hcells : csvCells (f :: g :: gs) = csvFieldCh f ++ ',' :: csvCells (g :: gs) := by
        simp [csvCells]
      match f with
      | [] =>
        refine ⟨',', csvCells (g :: gs) ++ ['\r', '\n'], ?_, by simp [isEol]⟩
        rw [hrow, hcells]
        simp [csvFieldCh, needsQuote]
      | c :: cs =>
        obtain ⟨d, ds, hd, hne⟩ :=
          csvFieldCh_cons_head c cs (',' :: csvCells (g :: gs) ++ ['\r', '\n'])
        refine ⟨d, ds, ?_, hne⟩
        rw [hrow, hcells]
        simpa using hd

theorem run_stR_row (fs : List (List Char)) (hfs : fs ≠ []) (acc : List (List (List Char)))
    (rest : List Char) :
    List.foldl csvStep ⟨[], [], acc, .stR⟩ (csvRowCh fs ++ rest) =
    List.foldl csvStep ⟨[], [], acc ++ [fs], .eat⟩ rest := by
  obtain ⟨c, cs, hrow, hc⟩ := csvRowCh_head fs hfs
  have h1 : csvRowCh fs ++ rest = c :: (cs ++ rest) := by rw [hrow]; simp
  rw [h1, run_stR_vs_stF c hc, ← h1]
  exact run_row fs hfs acc rest

theorem run_table (tbl : List (List (List Char))) (h : ∀ r ∈ tbl, r ≠ []) :
    ∀ acc, csvFinish (List.foldl csvStep ⟨[], [], acc, .stR⟩ (csvTableCh tbl)) = acc ++ tbl := by
  induction tbl with
  | nil => intro acc; simp [csvTableCh, csvFinish]
  | cons r rs ih =>
    intro acc
    have hsplit : csvTableCh (r :: rs) = csvRowCh r ++ csvTableCh rs := by
      simp [csvTableCh]
    rw [hsplit, run_stR_row r (h r (by simp)) acc (csvTableCh rs), run_eat_vs_stR,
      ih (fun x hx => h x (by simp [hx]))]
    simp

theorem parseCsvCh_write (tbl : List (List (List Char))) (h : ∀ r ∈ tbl, r ≠ []) :
    parseCsvCh (csvTableCh tbl) = tbl := by
  unfold parseCsvCh csvInitSt
  rw [run_table tbl h []]
  simp

/-- Round trip of the modeled csv writer and reader: re-parsing a written
file recovers exactly the written table (for rows with at least one field). -/
theorem parseCsv_writeCsv (tbl : List (List String)) (h : ∀ r ∈ tbl, r ≠ []) :
    parseCsv (writeCsv tbl) = tbl := by
  unfold parseCsv writeCsv
  have hdata : (String.mk (csvTableCh (tbl.map (fun r => r.map String.data)))).data
      = csvTableCh (tbl.map (fun r => r.map String.data)) := rfl
  rw [hdata, parseCsvCh_write _ (by
    intro r hr
    simp only [List.mem_map] at hr
    obtain ⟨r0, hr0, hrr⟩ := hr
    subst hrr
    simpa using h r0 hr0)]
  rw [List.map_map]
  have hr : ∀ r : List String, (r.map String.data).map String.mk = r := by
    intro r
    rw [List.map_map]
    calc r.map (String.mk ∘ String.data) = r.map id :=
          List.map_congr_left (fun s _ => rfl)
      _ = r := List.map_id r
  calc tbl.map ((fun r => r.map String.mk) ∘ fun r => r.map String.data) = tbl.map id :=
        List.map_congr_left (fun r _ => hr r)
    _ = tbl := List.map_id tbl

theorem countCRLF_cons_ne (c : Char) (l : List Char) (h : c ≠ '\r') :
    countCRLF (c :: l) = countCRLF l := by
  rw [countCRLF.eq_def]
  split
  · rename_i heq
    injection heq with h1 h2
    exact absurd h1 h
  · rename_i heq
    injection heq with h1 h2
    subst h2
    rfl
  · simp at *

theorem countCRLF_crlf (l : List Char) : countCRLF ('\r' :: '\n' :: l) = countCRLF l + 1 := rfl

theorem countCRLF_body (body : List Char) (h : ∀ c ∈ body, isEol c = false) :
    ∀ rest, countCRLF (body ++ '\r' :: '\n' :: rest) = countCRLF rest + 1 := by
  induction body with
  | nil => intro rest; simp [countCRLF_crlf]
  | cons c cs ih =>
    intro rest
    have hc : c ≠ '\r' := by
      have := h c (by simp)
      simp [isEol] at this
      exact this.1
    rw [List.cons_append, countCRLF_cons_ne c _ hc, ih (fun d hd => h d (by simp [hd])) rest]

theorem qesc_noEol (cs : List Char) (h : ∀ c ∈ cs, isEol c = false) :
    ∀ c ∈ qesc cs, isEol c = false := by
  induction cs with
  | nil => simp [qesc]
  | cons c cs ih =>
    intro d hd
    by_cases hc : c = '"'
    · subst hc
      have h1 : qesc ('"' :: cs) = '"' :: '"' :: qesc cs := by simp [qesc]
      rw [h1] at hd
      rcases List.mem_cons.mp hd with hd | hd
      · simp [hd, isEol]
      · rcases List.mem_cons.mp hd with hd | hd
        · simp [hd, isEol]
        · exact ih (fun x hx => h x (by simp [hx])) d hd
    · simp only [qesc, if_neg hc, List.mem_cons] at hd
      rcases hd with hd | hd
      · exact hd ▸ h c (by simp)
      · exact ih (fun x hx => h x (by simp [hx])) d hd

theorem csvFieldCh_noEol (f : List Char) (h : ∀ c ∈ f, isEol c = false) :
    ∀ c ∈ csvFieldCh f, isEol c = false := by
  intro c hc
  unfold csvFieldCh at hc
  by_cases hq : needsQuote f = true
  · rw [if_pos hq] at hc
    rcases List.mem_cons.mp hc with hc | hc
    · simp [hc, isEol]
    · rcases List.mem_append.mp hc with hc | hc
      · exact qesc_noEol f h c hc
      · simp only [List.mem_singleton] at hc
        simp [hc, isEol]
  · rw [if_neg hq] at hc
    exact h c hc

theorem csvCells_noEol (fs : List (List Char)) (h : ∀ f ∈ fs, ∀ c ∈ f, isEol c = false) :
    ∀ c ∈ csvCells fs, isEol c = false := by
  induction fs with
  | nil => simp [csvCells]
  | cons f fs ih =>
    intro c hc
    match fs with
    | [] =>
      simp only [csvCells] at hc
      exact csvFieldCh_noEol f (h f (by simp)) c hc
    | g :: gs =>
      simp only [csvCells, List.mem_append, List.mem_cons] at hc
      rcases hc with hc | hc | hc
      · exact csvFieldCh_noEol f (h f (by simp)) c hc
      · simp [hc, isEol]
      · exact ih (fun x hx => h x (by simp [hx])) c hc

theorem csvRowCh_count (fs : List (List Char)) (h : ∀ f ∈ fs, ∀ c ∈ f, isEol c = false)
    (rest : List Char) :
    countCRLF (csvRowCh fs ++ rest) = countCRLF rest + 1 := by
  by_cases hsp : fs = [[]]
  · have hr : csvRowCh fs ++ rest = '"' :: '"' :: ('\r' :: '\n' :: rest) := by
      subst hsp
      simp [csvRowCh]
    rw [hr, countCRLF_cons_ne _ _ (by decide), countCRLF_cons_ne _ _ (by decide),
      countCRLF_crlf]
  · have hr : csvRowCh fs ++ rest = csvCells fs ++ ('\r' :: '\n' :: rest) := by
      simp [csvRowCh, hsp]
    rw [hr, countCRLF_body (csvCells fs) (csvCells_noEol fs h) rest]

theorem csvTableCh_count (tbl : List (List (List Char)))
    (h : ∀ r ∈ tbl, ∀ f ∈ r, ∀ c ∈ f, isEol c = false) :
    countCRLF (csvTableCh tbl) = tbl.length := by
  induction tbl with
  | nil => simp [csvTableCh, countCRLF]
  | cons r rs ih =>
    have hsplit : csvTableCh (r :: rs) = csvRowCh r ++ csvTableCh rs := by simp [csvTableCh]
    rw [hsplit, csvRowCh_count r (h r (by simp)), ih (fun x hx => h x (by simp [hx]))]
    simp

theorem openFld_acc (st : CState) (c : Char) : (openFld st c).acc = st.acc := by
  unfold openFld endFld
  split
  · rfl
  · split
    · rfl
    · rfl

theorem csvStep_acc (st : CState) (c : Char) :
    ∃ t, (csvStep st c).acc = st.acc ++ t := by
  cases st with
  | mk f row acc m =>
    cases m with
    | stR =>
      by_cases hc : isEol c = true
      · exact ⟨[], by simp [csvStep, hc]⟩
      · refine ⟨[], ?_⟩
        have : csvStep ⟨f, row, acc, .stR⟩ c = openFld ⟨f, row, acc, .stR⟩ c := by
          simp [csvStep, hc]
        rw [this, openFld_acc]
        simp
    | stF =>
      by_cases hc : isEol c = true
      · exact ⟨[row ++ [f]], by simp [csvStep, hc, endRec]⟩
      · refine ⟨[], ?_⟩
        have : csvStep ⟨f, row, acc, .stF⟩ c = openFld ⟨f, row, acc, .stF⟩ c := by
          simp [csvStep, hc]
        rw [this, openFld_acc]
        simp
    | inF =>
      by_cases hc : isEol c = true
      · exact ⟨[row ++ [f]], by simp [csvStep, hc, endRec]⟩
      · by_cases hcm : c = ','
        · exact ⟨[], by simp [csvStep, hc, hcm, endFld, isEol]⟩
        · exact ⟨[], by simp [csvStep, hc, hcm]⟩
    | inQ =>
      by_cases hc : c = '"'
      · exact ⟨[], by simp [csvStep, hc]⟩
      · exact ⟨[], by simp [csvStep, hc]⟩
    | qQ =>
      by_cases hc : c = '"'
      · exact ⟨[], by simp [csvStep, hc]⟩
      · by_cases hcm : c = ','
        · exact ⟨[], by simp [csvStep, hc, hcm, endFld]⟩
        · by_cases he : isEol c = true
          · exact ⟨[row ++ [f]], by simp [csvStep, hc, hcm, he, endRec]⟩
          · exact ⟨[], by simp [csvStep, hc, hcm, he]⟩
    | eat =>
      by_cases hc : isEol c = true
      · exact ⟨[], by simp [csvStep, hc]⟩
      · refine ⟨[], ?_⟩
        have : csvStep ⟨f, row, acc, .eat⟩ c = openFld ⟨f, row, acc, .stR⟩ c := by
          simp [csvStep, hc]
        rw [this, openFld_acc]
        simp

theorem csvFinish_acc (st : CState) : ∃ t, csvFinish st = st.acc ++ t := by
  cases st with
  | mk f row acc m =>
    cases m with
    | stR => exact ⟨[], by simp [csvFinish]⟩
    | stF => exact ⟨[row ++ [f]], rfl⟩
    | inF => exact ⟨[row ++ [f]], rfl⟩
    | inQ => exact ⟨[row ++ [f]], rfl⟩
    | qQ => exact ⟨[row ++ [f]], rfl⟩
    | eat => exact ⟨[], by simp [csvFinish]⟩

theorem run_acc_prefix (cs : List Char) :
    ∀ st : CState, ∃ t, csvFinish (List.foldl csvStep st cs) = st.acc ++ t := by
  induction cs with
  | nil => intro st; exact csvFinish_acc st
  | cons c cs ih =>
    intro st
    obtain ⟨t1, h1⟩ := csvStep_acc st c
    obtain ⟨t2, h2⟩ := ih (csvStep st c)
    exact ⟨t1 ++ t2, by rw [List.foldl_cons, h2, h1, List.append_assoc]⟩

theorem strApp_mk (l1 l2 : List Char) : (⟨l1⟩ : String) ++ ⟨l2⟩ = ⟨l1 ++ l2⟩ := rfl

theorem strApp_assoc (a b c : String) : (a ++ b) ++ c = a ++ (b ++ c) := by
  cases a with
  | mk la =>
    cases b with
    | mk lb =>
      cases c with
      | mk lc =>
        rw [strApp_mk, strApp_mk, strApp_mk, strApp_mk]
        exact congrArg String.mk (List.append_assoc la lb lc)

theorem strApp_empty (a : String) : a ++ "" = a := by
  cases a with
  | mk la => exact congrArg String.mk (List.append_nil la)

theorem writeRowsLoop_ok (fieldnames : List String) (rs : List (List (String × PyVal)))
    (h : ∀ kvs ∈ rs, kvs.any (fun kv => !(fieldnames.contains kv.1)) = false) :
    ∀ acc, writeRowsLoop fieldnames (rs.map PyVal.dictV) acc =
      .ok (acc ++ ⟨csvTableCh
        (rs.map (fun kvs => (fieldnames.map (cellOf kvs)).map String.data))⟩) := by
  induction rs with
  | nil =>
    intro acc
    show Except.ok acc = _
    rw [List.map_nil, show (⟨csvTableCh []⟩ : String) = "" from rfl, strApp_empty]
  | cons kvs rs ih =>
    intro acc
    have hk := h kvs (by simp)
    show (if kvs.any (fun kv => !(fieldnames.contains kv.1)) then _ else _) = _
    rw [if_neg (by rw [hk]; exact Bool.false_ne_true)]
    rw [ih (fun x hx => h x (by simp [hx]))]
    have : csvTableCh (((kvs :: rs)).map (fun g => (fieldnames.map (cellOf g)).map String.data))
        = csvRowCh ((fieldnames.map (cellOf kvs)).map String.data)
          ++ csvTableCh (rs.map (fun g => (fieldnames.map (cellOf g)).map String.data)) := by
      simp [csvTableCh]
    rw [this, ← strApp_mk, strApp_assoc]
    rfl

theorem writeRowsLoop_badkey (fieldnames : List String) (rs : List (List (String × PyVal)))
    (h : ∃ kvs ∈ rs, kvs.any (fun kv => !(fieldnames.contains kv.1)) = true) :
    ∀ acc, ∃ sofar, writeRowsLoop fieldnames (rs.map PyVal.dictV) acc =
      .error ("ValueError: dict contains fields not in fieldnames", sofar) := by
  induction rs with
  | nil => obtain ⟨kvs, hmem, _⟩ := h; simp at hmem
  | cons kvs rs ih =>
    intro acc
    by_cases hk : kvs.any (fun kv => !(fieldnames.contains kv.1)) = true
    · refine ⟨acc, ?_⟩
      show (if kvs.any (fun kv => !(fieldnames.contains kv.1)) then _ else _) = _
      rw [if_pos hk]
    · obtain ⟨g, hg, hgb⟩ := h
      rcases List.mem_cons.mp hg with hgk | hgk
      · exact absurd (hgk ▸ hgb) hk
      · obtain ⟨sofar, hs⟩ := ih ⟨g, hgk, hgb⟩ (acc ++ rowStr (fieldnames.map (cellOf kvs)))
        refine ⟨sofar, ?_⟩
        show (if kvs.any (fun kv => !(fieldnames.contains kv.1)) then _ else _) = _
        rw [if_neg hk]
        exact hs

theorem writeRowsLoop_prefix (fieldnames : List String) (items : List PyVal) :
    ∀ acc, ∃ t, loopOut (writeRowsLoop fieldnames items acc) = acc ++ t := by
  induction items with
  | nil => intro acc; exact ⟨"", by simp [writeRowsLoop, loopOut, strApp_empty]⟩
  | cons v items ih =>
    intro acc
    cases v with
    | dictV kvs =>
      by_cases hk : kvs.any (fun kv => !(fieldnames.contains kv.1)) = true
      · refine ⟨"", ?_⟩
        show loopOut (if kvs.any (fun kv => !(fieldnames.contains kv.1)) then _ else _)
          = acc ++ ""
        rw [if_pos hk, strApp_empty]
        rfl
      · obtain ⟨t, ht⟩ := ih (acc ++ rowStr (fieldnames.map (cellOf kvs)))
        refine ⟨rowStr (fieldnames.map (cellOf kvs)) ++ t, ?_⟩
        show loopOut (if kvs.any (fun kv => !(fieldnames.contains kv.1)) then _ else _) = _
        rw [if_neg hk, ht, strApp_assoc]
    | noneV => exact ⟨"", by simp [writeRowsLoop, loopOut, strApp_empty]⟩
    | boolV b => exact ⟨"", by simp [writeRowsLoop, loopOut, strApp_empty]⟩
    | intV n => exact ⟨"", by simp [writeRowsLoop, loopOut, strApp_empty]⟩
    | strV s => exact ⟨"", by simp [writeRowsLoop, loopOut, strApp_empty]⟩
    | listV xs => exact ⟨"", by simp [writeRowsLoop, loopOut, strApp_empty]⟩

theorem writeRowsLoop_nondict (fieldnames : List String) (items : List PyVal)
    (h : ∃ x ∈ items, isDict x = false) :
    ∀ acc, ∃ exn sofar, writeRowsLoop fieldnames items acc = .error (exn, sofar) := by
  induction items with
  | nil =>
    obtain ⟨x, hx, _⟩ := h
    simp at hx
  | cons v rest ih =>
    intro acc
    cases v with
    | dictV kvs =>
      by_cases hk : kvs.any (fun kv => !(fieldnames.contains kv.1)) = true
      · refine ⟨"ValueError: dict contains fields not in fieldnames", acc, ?_⟩
        show (if kvs.any (fun kv => !(fieldnames.contains kv.1)) then _ else _) = _
        rw [if_pos hk]
      · obtain ⟨x, hx, hxd⟩ := h
        rcases List.mem_cons.mp hx with h1 | h1
        · subst h1
          simp [isDict] at hxd
        · obtain ⟨exn, sofar, hw⟩ :=
            ih ⟨x, h1, hxd⟩ (acc ++ rowStr (fieldnames.map (cellOf kvs)))
          refine ⟨exn, sofar, ?_⟩
          show (if kvs.any (fun kv => !(fieldnames.contains kv.1)) then _ else _) = _
          rw [if_neg hk]
          exact hw
    | noneV => exact ⟨"AttributeError: object has no attribute keys", acc, rfl⟩
    | boolV b => exact ⟨"AttributeError: object has no attribute keys", acc, rfl⟩
    | intV n => exact ⟨"AttributeError: object has no attribute keys", acc, rfl⟩
    | strV s => exact ⟨"AttributeError: object has no attribute keys", acc, rfl⟩
    | listV xs => exact ⟨"AttributeError: object has no attribute keys", acc, rfl⟩

theorem runMain_config_none (e : Env) (hc : configOk e = none) (net : NetResult) :
    runMain e net = .exit1 "Missing SUPABASE_URL or SUPABASE_SERVICE_ROLE_KEY in env" := by
  unfold runMain
  rw [hc]

theorem runMain_transport (e : Env) (u k : String) (hc : configOk e = some (u, k)) (m : String) :
    runMain e (.transportErr m) = .exit1 ("Request failed: " ++ m) := by
  unfold runMain
  rw [hc]

theorem runMain_http (e : Env) (u k : String) (hc : configOk e = some (u, k))
    (code : Nat) (body : String) :
    runMain e (.httpErr code body) = .exit1 ("HTTP error " ++ toString code ++ ": " ++ body) := by
  unfold runMain
  rw [hc]

theorem runMain_badjson (e : Env) (u k : String) (hc : configOk e = some (u, k))
    (body : String) (hj : jsonLoads body = none) :
    runMain e (.ok body) = .exit1 "Failed to parse JSON: JSONDecodeError" := by
  unfold runMain
  rw [hc]
  simp only [hj]

theorem runMain_empty (e : Env) (u k : String) (hc : configOk e = some (u, k))
    (body : String) (v : PyVal) (hj : jsonLoads body = some v) (hf : pyTruthy v = false) :
    runMain e (.ok body) = .exit1 "No rows returned." := by
  unfold runMain
  rw [hc]
  simp only [hj]
  simp [hf]

theorem runMain_crash_shape (e : Env) (u k : String) (hc : configOk e = some (u, k))
    (body : String) (v : PyVal) (hj : jsonLoads body = some v)
    (ht : pyTruthy v = true) (hs : headIsDict v = false) :
    ∃ exn, runMain e (.ok body) = .crashed exn none := by
  unfold runMain
  rw [hc]
  simp only [hj]
  cases v with
  | noneV => simp [pyTruthy] at ht
  | boolV b =>
    cases b with
    | false => simp [pyTruthy] at ht
    | true =>
      refine ⟨"TypeError: bool object is not subscriptable", ?_⟩
      rw [if_neg (by simp [pyTruthy])]
      rfl
  | intV n =>
    refine ⟨"TypeError: int object is not subscriptable", ?_⟩
    rw [if_neg (by simp [ht])]
    rfl
  | strV s =>
    match hsd : s.data with
    | [] =>
      exfalso
      have : s = "" := by
        cases s with
        | mk d => simp at hsd; rw [hsd]
      rw [this] at ht
      simp [pyTruthy] at ht
    | c :: cs =>
      refine ⟨"AttributeError: object has no attribute keys", ?_⟩
      rw [if_neg (by simp [ht])]
      show (match pyIndexZero (.strV s) with
        | .error exn => Outcome.crashed exn none
        | .ok first => _) = _
      rw [show pyIndexZero (.strV s) = .ok (.strV ⟨[c]⟩) by simp [pyIndexZero, hsd]]
      rfl
  | listV xs =>
    match xs with
    | [] => simp [pyTruthy] at ht
    | x :: rest =>
      cases x with
      | dictV kvs => simp [headIsDict] at hs
      | noneV =>
        exact ⟨"AttributeError: object has no attribute keys",
          by rw [if_neg (by simp [ht])]; rfl⟩
      | boolV b =>
        exact ⟨"AttributeError: object has no attribute keys",
          by rw [if_neg (by simp [ht])]; rfl⟩
      | intV n =>
        exact ⟨"AttributeError: object has no attribute keys",
          by rw [if_neg (by simp [ht])]; rfl⟩
      | strV s =>
        exact ⟨"AttributeError: object has no attribute keys",
          by rw [if_neg (by simp [ht])]; rfl⟩
      | listV ys =>
        exact ⟨"AttributeError: object has no attribute keys",
          by rw [if_neg (by simp [ht])]; rfl⟩
  | dictV kvs =>
    refine ⟨"KeyError: 0", ?_⟩
    rw [if_neg (by simp [ht])]
    rfl

theorem runMain_ok_write (e : Env) (u k : String) (hc : configOk e = some (u, k))
    (body : String) (kvs0 : List (String × PyVal)) (rest : List PyVal)
    (hj : jsonLoads body = some (.listV (.dictV kvs0 :: rest))) :
    runMain e (.ok body) =
      (match writeRowsLoop (kvs0.map Prod.fst) (.dictV kvs0 :: rest)
          (rowStr (kvs0.map Prod.fst)) with
       | .error p => .crashed p.1 (some p.2)
       | .ok content => .done content
          ("✅ Exported " ++ toString (rest.length + 1) ++ " clauses to "
            ++ (match e.argv.get? 1 with | some p => p | none => "lcl-export.csv"))) := by
  unfold runMain
  rw [hc]
  simp only [hj]
  rw [if_neg (by simp [pyTruthy])]
  show (match pyIndexZero (.listV (.dictV kvs0 :: rest)) with
    | .error exn => Outcome.crashed exn none
    | .ok first => _) = _
  rw [show pyIndexZero (.listV (.dictV kvs0 :: rest)) = .ok (.dictV kvs0) from rfl]
  show (match pyKeys (.dictV kvs0) with
    | .error exn => Outcome.crashed exn none
    | .ok fieldnames => _) = _
  rw [show pyKeys (.dictV kvs0) = .ok (kvs0.map Prod.fst) from rfl]
  show (match pyIter (.listV (.dictV kvs0 :: rest)) with
    | .error exn => Outcome.crashed exn (some (rowStr (kvs0.map Prod.fst)))
    | .ok items => _) = _
  rw [show pyIter (.listV (.dictV kvs0 :: rest)) = .ok (.dictV kvs0 :: rest) from rfl]
  cases hw : writeRowsLoop (kvs0.map Prod.fst) (.dictV kvs0 :: rest)
      (rowStr (kvs0.map Prod.fst)) with
  | error p =>
    cases p with
    | mk exn sofar => rfl
  | ok content =>
    show Outcome.done content _ = Outcome.done content _
    rw [show (PyVal.dictV kvs0 :: rest).length = rest.length + 1 by simp]

theorem map_data_mk (r : List String) : (r.map String.data).map String.mk = r := by
  rw [List.map_map]
  calc r.map (String.mk ∘ String.data) = r.map id := List.map_congr_left (fun s _ => rfl)
    _ = r := List.map_id r

theorem parseCsv_head (fn : List String) (hne : fn ≠ []) (t : String) :
    (parseCsv (rowStr fn ++ t)).head? = some fn := by
  unfold parseCsv rowStr parseCsvCh csvInitSt
  rw [String.data_append]
  have hd : (String.mk (csvRowCh (fn.map String.data))).data = csvRowCh (fn.map String.data) :=
    rfl
  rw [hd, List.foldl_append]
  have hfnch : fn.map String.data ≠ [] := by
    intro hcon
    exact hne (by simpa using congrArg (List.map String.mk) hcon)
  have hrun := run_stR_row (fn.map String.data) hfnch [] t.data
  rw [List.foldl_append] at hrun
  rw [hrun]
  simp only [List.nil_append]
  obtain ⟨suf, hsuf⟩ := run_acc_prefix t.data ⟨[], [], [fn.map String.data], .eat⟩
  rw [hsuf]
  simp only [List.cons_append, List.nil_append, List.map_cons, List.head?_cons,
    Option.some.injEq]
  rw [List.map_map]
  calc fn.map (String.mk ∘ String.data) = fn.map id := List.map_congr_left (fun s _ => rfl)
    _ = fn := List.map_id fn

theorem splitScheme_cons_ne (c : Char) (l : List Char) (h : c ≠ ':') :
    splitScheme (c :: l) = (splitScheme l).map (fun p => (c :: p.1, p.2)) := by
  simp [splitScheme, h]

theorem splitScheme_exact (scheme host : List Char) (h : ∀ c ∈ scheme, c ≠ ':') :
    splitScheme (scheme ++ ':' :: '/' :: '/' :: host) = some (scheme, host) := by
  induction scheme with
  | nil => simp [splitScheme]
  | cons c cs ih =>
    rw [List.cons_append, splitScheme_cons_ne c _ (h c (by simp)),
      ih (fun d hd => h d (by simp [hd]))]
    rfl

theorem urljoin_base (base : String) (sch host : List Char)
    (hsp : splitScheme base.data = some (sch, host))
    (hhost : host.takeWhile (fun c => c ≠ '/') = host)
    (hbase : base = (⟨sch⟩ : String) ++ "://" ++ (⟨host⟩ : String)) (path : String) :
    urljoinAbsPath base path = base ++ path := by
  unfold urljoinAbsPath
  rw [hsp]
  show (⟨sch⟩ : String) ++ "://" ++ (⟨host.takeWhile (fun c => c ≠ '/')⟩ : String) ++ path
    = base ++ path
  rw [hhost, hbase]

theorem noExtra (fn : List String) (kvs : List (String × PyVal))
    (h : ∀ kv ∈ kvs, kv.1 ∈ fn) :
    kvs.any (fun kv => !(fn.contains kv.1)) = false := by
  rw [List.any_eq_false]
  intro kv hkv
  have hmem : kv.1 ∈ fn := h kv hkv
  simp only [Bool.not_eq_true]
  have hct : fn.contains kv.1 = true := List.elem_eq_true_of_mem hmem
  rw [hct]
  rfl

theorem export_ok (e : Env) (u k : String) (hc : configOk e = some (u, k))
    (body : String) (kvs0 : List (String × PyVal)) (krest : List (List (String × PyVal)))
    (hj : jsonLoads body = some (.listV ((kvs0 :: krest).map PyVal.dictV)))
    (hsub : ∀ kvs ∈ kvs0 :: krest, ∀ kv ∈ kvs, kv.1 ∈ kvs0.map Prod.fst) :
    runMain e (.ok body) =
      .done (writeCsv ((kvs0.map Prod.fst) ::
          (kvs0 :: krest).map (fun kvs => (kvs0.map Prod.fst).map (cellOf kvs))))
        ("✅ Exported " ++ toString (krest.length + 1) ++ " clauses to "
          ++ (match e.argv.get? 1 with | some p => p | none => "lcl-export.csv")) := by
  have hj2 : jsonLoads body = some (.listV (.dictV kvs0 :: krest.map PyVal.dictV)) := by
    simpa using hj
  rw [runMain_ok_write e u k hc body kvs0 (krest.map PyVal.dictV) hj2]
  have hw := writeRowsLoop_ok (kvs0.map Prod.fst) (kvs0 :: krest)
    (fun kvs hkvs => noExtra _ kvs (hsub kvs hkvs)) (rowStr (kvs0.map Prod.fst))
  simp only [List.map_cons] at hw
  rw [hw]
  show Outcome.done _ _ = Outcome.done _ _
  congr 1
  · show rowStr (kvs0.map Prod.fst) ++ _ = _
    unfold rowStr writeCsv
    rw [strApp_mk]
    congr 1
    simp only [csvTableCh, List.map_cons, List.flatten_cons, List.map_map]
    have hmm : List.map (csvRowCh ∘ fun kvs =>
          List.map (String.data ∘ cellOf kvs ∘ Prod.fst) kvs0) krest
        = List.map (csvRowCh ∘ (fun r => List.map String.data r) ∘ fun kvs =>
            List.map (cellOf kvs ∘ Prod.fst) kvs0) krest :=
      List.map_congr_left (fun kvs _ => by simp [Function.comp, List.map_map])
    rw [hmm]
  · simp

theorem export_badkey (e : Env) (u k : String) (hc : configOk e = some (u, k))
    (body : String) (kvs0 : List (String × PyVal)) (krest : List (List (String × PyVal)))
    (hj : jsonLoads body = some (.listV ((kvs0 :: krest).map PyVal.dictV)))
    (hbad : ∃ kvs ∈ kvs0 :: krest, ∃ kv ∈ kvs, kv.1 ∉ kvs0.map Prod.fst) :
    ∃ sofar, runMain e (.ok body) =
      .crashed "ValueError: dict contains fields not in fieldnames" (some sofar) := by
  have hj2 : jsonLoads body = some (.listV (.dictV kvs0 :: krest.map PyVal.dictV)) := by
    simpa using hj
  have hbad' : ∃ kvs ∈ kvs0 :: krest,
      kvs.any (fun kv => !((kvs0.map Prod.fst).contains kv.1)) = true := by
    obtain ⟨kvs, hk, kv, hkv, hnot⟩ := hbad
    refine ⟨kvs, hk, List.any_eq_true.mpr ⟨kv, hkv, ?_⟩⟩
    cases hb : (kvs0.map Prod.fst).contains kv.1 with
    | true => exact absurd (List.mem_of_elem_eq_true hb) hnot
    | false => rfl
  obtain ⟨sofar, hw⟩ :=
    writeRowsLoop_badkey (kvs0.map Prod.fst) (kvs0 :: krest) hbad'
      (rowStr (kvs0.map Prod.fst))
  refine ⟨sofar, ?_⟩
  rw [runMain_ok_write e u k hc body kvs0 (krest.map PyVal.dictV) hj2]
  simp only [List.map_cons] at hw
  rw [hw]

/-- C5: for every environment state in which either the base URL
(`SUPABASE_URL`, with `NEXT_PUBLIC_SUPABASE_URL` as fallback) or the service
credential (`SUPABASE_SERVICE_ROLE_KEY`) is absent, the process prints the
diagnostic to the error stream, exits with a non-zero code (code 1), and
attempts no network request: the outcome is the same whatever the network
would have answered. -/
theorem claim_C5_config_gate (e : Env)
    (h : (e.SUPABASE_URL = none ∧ e.NEXT_PUBLIC_SUPABASE_URL = none) ∨
      e.SUPABASE_SERVICE_ROLE_KEY = none) :
    (∀ net, runMain e net =
      .exit1 "Missing SUPABASE_URL or SUPABASE_SERVICE_ROLE_KEY in env") ∧
    (∀ net1 net2, runMain e net1 = runMain e net2) := by
  have hc : configOk e = none := by
    rcases h with ⟨h1, h2⟩ | h3
    · simp [configOk, pyOr, strTruthy, h1, h2]
    · simp [configOk, h3, strTruthy]
  refine ⟨fun net => runMain_config_none e hc net, fun n1 n2 => ?_⟩
  rw [runMain_config_none e hc n1, runMain_config_none e hc n2]

theorem claim_C5_config_gate_witness :
    runMain ⟨none, none, some "servicekey", []⟩ (.transportErr "unreachable") =
      .exit1 "Missing SUPABASE_URL or SUPABASE_SERVICE_ROLE_KEY in env" :=
  (claim_C5_config_gate ⟨none, none, some "servicekey", []⟩ (Or.inl ⟨rfl, rfl⟩)).1
    (.transportErr "unreachable")

/-- C8: every `HTTPError` outcome of the single request (non-2xx status),
in particular a 403 with body `{"message":"invalid key"}`, makes the process
exit with code 1 after printing the status code and the response body to the
error stream; no output file is created, and no retry happens (the run
consumes exactly one network outcome). -/
theorem claim_C8_http_error (e : Env) (u k : String) (hc : configOk e = some (u, k))
    (code : Nat) (body : String) :
    runMain e (.httpErr code body) =
      .exit1 ("HTTP error " ++ toString code ++ ": " ++ body) ∧
    outFile (runMain e (.httpErr code body)) = none := by
  constructor
  · exact runMain_http e u k hc code body
  · rw [runMain_http e u k hc code body]
    rfl

theorem claim_C8_http_error_witness :
    runMain envW (.httpErr 403 "\x7b\"message\":\"invalid key\"\x7d") =
      .exit1 "HTTP error 403: \x7b\"message\":\"invalid key\"\x7d" ∧
    outFile (runMain envW (.httpErr 403 "\x7b\"message\":\"invalid key\"\x7d")) = none :=
  claim_C8_http_error envW "https://demo.supabase.co" "servicekey" rfl 403
    "\x7b\"message\":\"invalid key\"\x7d"

/-- C9: every response body that parses to a falsy JSON value — `[]` but also
`null`, `false`, `0`, the empty string, or `{}` — takes the empty-result
error path: the diagnostic `No rows returned.` goes to the error stream, the
process exits with code 1, and the output file is not written. -/
theorem claim_C9_falsy_empty (e : Env) (u k : String) (hc : configOk e = some (u, k))
    (body : String) (v : PyVal) (hj : jsonLoads body = some v)
    (hf : pyTruthy v = false) :
    runMain e (.ok body) = .exit1 "No rows returned." ∧
    outFile (runMain e (.ok body)) = none := by
  constructor
  · exact runMain_empty e u k hc body v hj hf
  · rw [runMain_empty e u k hc body v hj hf]
    rfl

theorem claim_C9_falsy_empty_witness :
    runMain envW (.ok "[]") = .exit1 "No rows returned." ∧
    runMain envW (.ok "null") = .exit1 "No rows returned." ∧
    runMain envW (.ok "false") = .exit1 "No rows returned." ∧
    runMain envW (.ok "0") = .exit1 "No rows returned." ∧
    runMain envW (.ok "\"\"") = .exit1 "No rows returned." ∧
    runMain envW (.ok "\x7b\x7d") = .exit1 "No rows returned." :=
  ⟨(claim_C9_falsy_empty envW "https://demo.supabase.co" "servicekey" rfl
      "[]" (.listV []) rfl rfl).1,
   (claim_C9_falsy_empty envW "https://demo.supabase.co" "servicekey" rfl
      "null" .noneV rfl rfl).1,
   (claim_C9_falsy_empty envW "https://demo.supabase.co" "servicekey" rfl
      "false" (.boolV false) rfl rfl).1,
   (claim_C9_falsy_empty envW "https://demo.supabase.co" "servicekey" rfl
      "0" (.intV 0) rfl rfl).1,
   (claim_C9_falsy_empty envW "https://demo.supabase.co" "servicekey" rfl
      "\"\"" (.strV "") rfl rfl).1,
   (claim_C9_falsy_empty envW "https://demo.supabase.co" "servicekey" rfl
      "\x7b\x7d" (.dictV []) rfl rfl).1⟩

/-- C10 counterexample: the response `[{"a":1},5]` parses to a truthy value
that is not an array of objects (its second element is a scalar), so it is in
the claim's scope, yet the run does not terminate "without writing the output
file": the header and the first row are written before the uncaught
`AttributeError` aborts the loop, leaving a partial file. -/
theorem claim_C10_shape_crash_counterexample :
    runMain envW (.ok "[\x7b\"a\":1\x7d,5]") =
      .crashed "AttributeError: object has no attribute keys" (some "a\r\n1\r\n") ∧
    jsonLoads "[\x7b\"a\":1\x7d,5]" =
      some (.listV [.dictV [("a", .intV 1)], .intV 5]) ∧
    pyTruthy (.listV [.dictV [("a", .intV 1)], .intV 5]) = true ∧
    isArrayOfDicts (.listV [.dictV [("a", .intV 1)], .intV 5]) = false ∧
    outFile (runMain envW (.ok "[\x7b\"a\":1\x7d,5]")) ≠ none := by
  refine ⟨rfl, rfl, rfl, rfl, by decide⟩

/-- C10 amended: every response body that parses to a truthy JSON value that
is not an array of objects makes the process terminate via an uncaught
exception — outside the five diagnosed error kinds — and never produce the
success outcome; the output file is untouched exactly when the failure comes
before the first record is written (a truthy non-list, or a list whose first
element is not an object), while a list that starts with an object but
contains a later non-object element leaves a partially written file. -/
theorem claim_C10_shape_crash_amended (e : Env) (u k : String)
    (hc : configOk e = some (u, k)) (body : String) (v : PyVal)
    (hj : jsonLoads body = some v) (ht : pyTruthy v = true)
    (hs : isArrayOfDicts v = false) :
    ∃ exn pf, runMain e (.ok body) = .crashed exn pf ∧
      (headIsDict v = false → pf = none) ∧
      (headIsDict v = true → pf ≠ none) ∧
      (∀ f m, runMain e (.ok body) ≠ .done f m) := by
  cases hhd : headIsDict v with
  | false =>
    obtain ⟨exn, hx⟩ := runMain_crash_shape e u k hc body v hj ht hhd
    refine ⟨exn, none, hx, fun _ => rfl, ?_, ?_⟩
    · intro hcon
      exact absurd hcon Bool.false_ne_true
    · intro f m hcon
      rw [hx] at hcon
      exact Outcome.noConfusion hcon
  | true =>
    cases v with
    | noneV => simp [headIsDict] at hhd
    | boolV b => simp [headIsDict] at hhd
    | intV n => simp [headIsDict] at hhd
    | strV s => simp [headIsDict] at hhd
    | dictV kvs => simp [headIsDict] at hhd
    | listV xs =>
      cases xs with
      | nil => simp [headIsDict] at hhd
      | cons x rest =>
        cases x with
        | noneV => simp [headIsDict] at hhd
        | boolV b => simp [headIsDict] at hhd
        | intV n => simp [headIsDict] at hhd
        | strV s => simp [headIsDict] at hhd
        | listV ys => simp [headIsDict] at hhd
        | dictV kvs0 =>
          have hrest : rest.all isDict = false := by
            simpa [isArrayOfDicts, isDict] using hs
          have hbad : ∃ y ∈ rest, isDict y = false := by
            simpa using List.all_eq_false.mp hrest
          obtain ⟨exn, sofar, hw⟩ := writeRowsLoop_nondict (kvs0.map Prod.fst)
            (.dictV kvs0 :: rest)
            (by
              obtain ⟨y, hy, hyd⟩ := hbad
              exact ⟨y, List.mem_cons_of_mem _ hy, hyd⟩)
            (rowStr (kvs0.map Prod.fst))
          have hrun : runMain e (.ok body) = .crashed exn (some sofar) := by
            rw [runMain_ok_write e u k hc body kvs0 rest hj, hw]
          refine ⟨exn, some sofar, hrun, ?_, fun _ => by simp, ?_⟩
          · intro hcon
            simp [headIsDict] at hcon
          · intro f m hcon
            rw [hrun] at hcon
            exact Outcome.noConfusion hcon

theorem claim_C10_shape_crash_amended_witness :
    outFile (runMain envW (.ok "\x7b\"a\":1\x7d")) = none ∧
    outFile (runMain envW (.ok "[1,2]")) = none ∧
    outFile (runMain envW (.ok "[\x7b\"a\":1\x7d,5]")) ≠ none := by
  obtain ⟨e1, pf1, h1, hn1, _, _⟩ := claim_C10_shape_crash_amended envW
    "https://demo.supabase.co" "servicekey" rfl "\x7b\"a\":1\x7d"
    (.dictV [("a", .intV 1)]) rfl rfl rfl
  obtain ⟨e2, pf2, h2, hn2, _, _⟩ := claim_C10_shape_crash_amended envW
    "https://demo.supabase.co" "servicekey" rfl "[1,2]"
    (.listV [.intV 1, .intV 2]) rfl rfl rfl
  obtain ⟨e3, pf3, h3, _, hs3, _⟩ := claim_C10_shape_crash_amended envW
    "https://demo.supabase.co" "servicekey" rfl "[\x7b\"a\":1\x7d,5]"
    (.listV [.dictV [("a", .intV 1)], .intV 5]) rfl rfl rfl
  refine ⟨?_, ?_, ?_⟩
  · rw [h1, hn1 rfl]
    rfl
  · rw [h2, hn2 rfl]
    rfl
  · rw [h3]
    exact hs3 rfl

/-- C4: for every one of the five diagnosed error outcomes — missing
configuration, transport failure, non-2xx HTTP status, malformed JSON body,
and a falsy (in particular empty-array) JSON response — the process exits
with code 1 and the output file is neither created nor overwritten; in
particular a response body of `[]` does not produce a header-only CSV.
Nothing is written on any of these paths. -/
theorem claim_C4_atomic_errors (e : Env) :
    (∀ m, ∃ d, runMain e (.transportErr m) = .exit1 d ∧
      outFile (runMain e (.transportErr m)) = none) ∧
    (∀ code body, ∃ d, runMain e (.httpErr code body) = .exit1 d ∧
      outFile (runMain e (.httpErr code body)) = none) ∧
    (∀ body, jsonLoads body = none → ∃ d, runMain e (.ok body) = .exit1 d ∧
      outFile (runMain e (.ok body)) = none) ∧
    (∀ body v, jsonLoads body = some v → pyTruthy v = false →
      ∃ d, runMain e (.ok body) = .exit1 d ∧ outFile (runMain e (.ok body)) = none) ∧
    (configOk e = none → ∀ net, ∃ d, runMain e net = .exit1 d ∧
      outFile (runMain e net) = none) := by
  refine ⟨?_, ?_, ?_, ?_, ?_⟩
  · intro m
    cases hcfg : configOk e with
    | none =>
      exact ⟨_, runMain_config_none e hcfg _, by rw [runMain_config_none e hcfg]; rfl⟩
    | some p =>
      exact ⟨_, runMain_transport e p.1 p.2 (by rw [hcfg]) m,
        by rw [runMain_transport e p.1 p.2 (by rw [hcfg]) m]; rfl⟩
  · intro code body
    cases hcfg : configOk e with
    | none =>
      exact ⟨_, runMain_config_none e hcfg _, by rw [runMain_config_none e hcfg]; rfl⟩
    | some p =>
      exact ⟨_, runMain_http e p.1 p.2 (by rw [hcfg]) code body,
        by rw [runMain_http e p.1 p.2 (by rw [hcfg]) code body]; rfl⟩
  · intro body hj
    cases hcfg : configOk e with
    | none =>
      exact ⟨_, runMain_config_none e hcfg _, by rw [runMain_config_none e hcfg]; rfl⟩
    | some p =>
      exact ⟨_, runMain_badjson e p.1 p.2 (by rw [hcfg]) body hj,
        by rw [runMain_badjson e p.1 p.2 (by rw [hcfg]) body hj]; rfl⟩
  · intro body v hj hf
    cases hcfg : configOk e with
    | none =>
      exact ⟨_, runMain_config_none e hcfg _, by rw [runMain_config_none e hcfg]; rfl⟩
    | some p =>
      exact ⟨_, runMain_empty e p.1 p.2 (by rw [hcfg]) body v hj hf,
        by rw [runMain_empty e p.1 p.2 (by rw [hcfg]) body v hj hf]; rfl⟩
  · intro hcfg net
    exact ⟨_, runMain_config_none e hcfg net, by rw [runMain_config_none e hcfg]; rfl⟩

theorem claim_C4_atomic_errors_witness :
    outFile (runMain envW (.ok "[]")) = none ∧
    outFile (runMain envW (.transportErr "timeout")) = none ∧
    outFile (runMain envW (.ok "not json")) = none := by
  obtain ⟨d1, _, h1⟩ := (claim_C4_atomic_errors envW).2.2.2.1 "[]" (.listV []) rfl rfl
  obtain ⟨d2, _, h2⟩ := (claim_C4_atomic_errors envW).1 "timeout"
  obtain ⟨d3, _, h3⟩ := (claim_C4_atomic_errors envW).2.2.1 "not json" rfl
  exact ⟨h1, h2, h3⟩

/-- C2: for every response that is a JSON array whose first element is a
(nonempty) object, the header row of the written CSV equals exactly the
insertion-ordered key list of that first record, regardless of the key order
or key sets of subsequent records — this holds whether the export completes
or a later record makes the writer raise after the header has been written. -/
theorem claim_C2_header (e : Env) (u k : String) (hc : configOk e = some (u, k))
    (body : String) (kvs0 : List (String × PyVal)) (rest : List PyVal)
    (hj : jsonLoads body = some (.listV (.dictV kvs0 :: rest)))
    (hne : kvs0 ≠ []) :
    ∃ f, outFile (runMain e (.ok body)) = some f ∧
      (parseCsv f).head? = some (kvs0.map Prod.fst) := by
  rw [runMain_ok_write e u k hc body kvs0 rest hj]
  obtain ⟨t, ht⟩ := writeRowsLoop_prefix (kvs0.map Prod.fst) (.dictV kvs0 :: rest)
    (rowStr (kvs0.map Prod.fst))
  have hfn : (kvs0.map Prod.fst) ≠ [] := by
    cases kvs0 with
    | nil => exact absurd rfl hne
    | cons a l => simp
  cases hw : writeRowsLoop (kvs0.map Prod.fst) (.dictV kvs0 :: rest)
      (rowStr (kvs0.map Prod.fst)) with
  | ok content =>
    rw [hw] at ht
    refine ⟨content, rfl, ?_⟩
    have hcontent : content = rowStr (kvs0.map Prod.fst) ++ t := by
      simpa [loopOut] using ht
    rw [hcontent]
    exact parseCsv_head _ hfn t
  | error p =>
    rw [hw] at ht
    refine ⟨p.2, ?_, ?_⟩
    · cases p
      rfl
    · have hcontent : p.2 = rowStr (kvs0.map Prod.fst) ++ t := by
        simpa [loopOut] using ht
      rw [hcontent]
      exact parseCsv_head _ hfn t

theorem claim_C2_header_witness :
    (parseCsv ((outFile (runMain envW
      (.ok "[\x7b\"a\":1,\"z\":2\x7d,\x7b\"b\":3,\"a\":4\x7d]"))).getD "")).head?
      = some ["a", "z"] := by
  obtain ⟨f, hf, hh⟩ := claim_C2_header envW "https://demo.supabase.co" "servicekey" rfl
    "[\x7b\"a\":1,\"z\":2\x7d,\x7b\"b\":3,\"a\":4\x7d]"
    [("a", .intV 1), ("z", .intV 2)] [.dictV [("b", .intV 3), ("a", .intV 4)]]
    rfl (by simp)
  rw [hf]
  simpa using hh

/-- C3 counterexample: for the response `[{"a":1},{"a":2,"b":3}]`, whose
second record has the extra key `b`, the export does not succeed and the
extra key is not silently dropped: `DictWriter` (with its default
`extrasaction='raise'`) raises an uncaught `ValueError`, leaving a partially
written file (header plus the first row). -/
theorem claim_C3_heterogeneity_counterexample :
    runMain envW (.ok "[\x7b\"a\":1\x7d,\x7b\"a\":2,\"b\":3\x7d]") =
      .crashed "ValueError: dict contains fields not in fieldnames"
        (some "a\r\n1\r\n") := rfl

/-- C3 amended: rows whose keys are a subset of the first record's keys
serialize in the first record's key order with missing keys rendered as empty
fields, and the export succeeds; but a record with a key not in the header
makes the writer raise an uncaught `ValueError` (heterogeneity with extra
keys is an error, not a silent drop). -/
theorem claim_C3_heterogeneity_amended (e : Env) (u k : String)
    (hc : configOk e = some (u, k)) (body : String)
    (kvs0 : List (String × PyVal)) (krest : List (List (String × PyVal)))
    (hj : jsonLoads body = some (.listV ((kvs0 :: krest).map PyVal.dictV))) :
    ((∀ kvs ∈ kvs0 :: krest, ∀ kv ∈ kvs, kv.1 ∈ kvs0.map Prod.fst) →
      runMain e (.ok body) =
        .done (writeCsv ((kvs0.map Prod.fst) ::
            (kvs0 :: krest).map (fun kvs => (kvs0.map Prod.fst).map (cellOf kvs))))
          ("✅ Exported " ++ toString (krest.length + 1) ++ " clauses to "
            ++ (match e.argv.get? 1 with | some p => p | none => "lcl-export.csv"))) ∧
    ((∃ kvs ∈ kvs0 :: krest, ∃ kv ∈ kvs, kv.1 ∉ kvs0.map Prod.fst) →
      ∃ sofar, runMain e (.ok body) =
        .crashed "ValueError: dict contains fields not in fieldnames" (some sofar)) ∧
    (∀ kvs : List (String × PyVal), ∀ key, key ∉ kvs.map Prod.fst →
      cellOf kvs key = "") := by
  refine ⟨fun hsub => export_ok e u k hc body kvs0 krest hj hsub,
    fun hbad => export_badkey e u k hc body kvs0 krest hj hbad, ?_⟩
  intro kvs key hkey
  unfold cellOf assocGet
  have hfind : kvs.find? (fun kv => kv.1 = key) = none := by
    rw [List.find?_eq_none]
    intro kv hkv
    simp only [decide_eq_true_eq]
    intro heq
    exact hkey (heq ▸ List.mem_map_of_mem Prod.fst hkv)
  rw [hfind]
  rfl

theorem claim_C3_heterogeneity_amended_witness :
    runMain envW (.ok "[\x7b\"a\":1,\"b\":2\x7d,\x7b\"a\":3\x7d]") =
      .done (writeCsv [["a", "b"], ["1", "2"], ["3", ""]])
        "✅ Exported 2 clauses to lcl-export.csv" ∧
    cellOf [("a", .intV 3)] "b" = "" := by
  have h := claim_C3_heterogeneity_amended envW "https://demo.supabase.co" "servicekey"
    rfl "[\x7b\"a\":1,\"b\":2\x7d,\x7b\"a\":3\x7d]"
    [("a", .intV 1), ("b", .intV 2)] [[("a", .intV 3)]] rfl
  refine ⟨h.1 ?_, h.2.2 [("a", .intV 3)] "b" (by decide)⟩
  intro kvs hkvs kv hkv
  rcases List.mem_cons.mp hkvs with h1 | h1
  · subst h1
    rcases List.mem_cons.mp hkv with h2 | h2
    · rw [h2]
      simp
    · rcases List.mem_cons.mp h2 with h3 | h3
      · rw [h3]
        simp
      · simp at h3
  · rcases List.mem_cons.mp h1 with h2 | h2
    · subst h2
      rcases List.mem_cons.mp hkv with h3 | h3
      · rw [h3]
        simp
      · simp at h3
    · simp at h2

/-- C1 counterexample: for the well-formed single-record response
`[{"a":true,"b":"x\r\ny"}]` (N = 1, all records trivially share one key
set), the written CSV does not have N + 1 = 2 CRLF-terminated lines (the
embedded CRLF of the quoted field adds a third), and the re-parsed cell for
field `a` is `True` — Python's `str()` of the parsed boolean — which differs
from the field's JSON scalar representation `true`. -/
theorem claim_C1_roundtrip_counterexample :
    runMain envW (.ok "[\x7b\"a\":true,\"b\":\"x\\r\\ny\"\x7d]") =
      .done "a,b\r\nTrue,\"x\r\ny\"\r\n" "✅ Exported 1 clauses to lcl-export.csv" ∧
    countCRLF ("a,b\r\nTrue,\"x\r\ny\"\r\n").data ≠ 1 + 1 ∧
    parseCsv "a,b\r\nTrue,\"x\r\ny\"\r\n" = [["a", "b"], ["True", "x\r\ny"]] ∧
    "True" ≠ jsonScalarRepr (.boolV true) ∧
    "" ≠ jsonScalarRepr .noneV := by
  refine ⟨rfl, by decide, rfl, by decide, by decide⟩

/-- C1 amended: for every response that is a JSON array of N records
(1 ≤ N ≤ 2000) all having the same (nonempty) key set, and whose rendered
cell values and keys contain no CR or LF, the export succeeds, the written
CSV has exactly N + 1 CRLF-terminated lines, and re-parsing the CSV yields
for each record and each field the `csv` writer's rendering of that field's
parsed value (`csvCell`): the string itself for strings, decimal text for
integers, but `True`/`False` for booleans and the empty string for `null` —
not the JSON scalar representations `true`/`false`/`null`. -/
theorem claim_C1_roundtrip_amended (e : Env) (u k : String)
    (hc : configOk e = some (u, k)) (body : String)
    (kvs0 : List (String × PyVal)) (krest : List (List (String × PyVal)))
    (hj : jsonLoads body = some (.listV ((kvs0 :: krest).map PyVal.dictV)))
    (hlen : (kvs0 :: krest).length ≤ 2000)
    (hfne : kvs0 ≠ [])
    (hsame : ∀ kvs ∈ kvs0 :: krest, ∀ key,
      key ∈ kvs.map Prod.fst ↔ key ∈ kvs0.map Prod.fst)
    (hnoeolc : ∀ kvs ∈ kvs0 :: krest, ∀ key ∈ kvs0.map Prod.fst,
      ∀ c ∈ (cellOf kvs key).data, isEol c = false)
    (hnoeolk : ∀ key ∈ kvs0.map Prod.fst, ∀ c ∈ key.data, isEol c = false) :
    runMain e (.ok body) =
      .done (writeCsv ((kvs0.map Prod.fst) ::
          (kvs0 :: krest).map (fun kvs => (kvs0.map Prod.fst).map (cellOf kvs))))
        ("✅ Exported " ++ toString (krest.length + 1) ++ " clauses to "
          ++ (match e.argv.get? 1 with | some p => p | none => "lcl-export.csv")) ∧
    countCRLF (writeCsv ((kvs0.map Prod.fst) ::
        (kvs0 :: krest).map (fun kvs => (kvs0.map Prod.fst).map (cellOf kvs)))).data
      = (kvs0 :: krest).length + 1 ∧
    parseCsv (writeCsv ((kvs0.map Prod.fst) ::
        (kvs0 :: krest).map (fun kvs => (kvs0.map Prod.fst).map (cellOf kvs))))
      = (kvs0.map Prod.fst) ::
          (kvs0 :: krest).map (fun kvs => (kvs0.map Prod.fst).map (cellOf kvs)) := by
  have hfn : (kvs0.map Prod.fst) ≠ [] := by
    cases kvs0 with
    | nil => exact absurd rfl hfne
    | cons a l => simp
  have hsub : ∀ kvs ∈ kvs0 :: krest, ∀ kv ∈ kvs, kv.1 ∈ kvs0.map Prod.fst := by
    intro kvs hkvs kv hkv
    exact (hsame kvs hkvs kv.1).mp (List.mem_map_of_mem Prod.fst hkv)
  refine ⟨export_ok e u k hc body kvs0 krest hj hsub, ?_, ?_⟩
  · show countCRLF (csvTableCh _) = _
    rw [csvTableCh_count]
    · simp
    · intro r hr f hf c hcch
      rw [List.mem_map] at hr
      obtain ⟨r0, hr0, hreq⟩ := hr
      subst hreq
      rw [List.mem_map] at hf
      obtain ⟨s, hs, hseq⟩ := hf
      subst hseq
      rcases List.mem_cons.mp hr0 with hr0 | hr0
      · subst hr0
        exact hnoeolk s hs c hcch
      · rw [List.mem_map] at hr0
        obtain ⟨kvs, hkvs, hkeq⟩ := hr0
        subst hkeq
        rw [List.mem_map] at hs
        obtain ⟨key, hkey, hceq⟩ := hs
        subst hceq
        exact hnoeolc kvs hkvs key hkey c hcch
  · apply parseCsv_writeCsv
    intro r hr
    rcases List.mem_cons.mp hr with hr | hr
    · subst hr
      exact hfn
    · rw [List.mem_map] at hr
      obtain ⟨kvs, hkvs, hreq⟩ := hr
      subst hreq
      cases hfc : kvs0.map Prod.fst with
      | nil => exact absurd hfc hfn
      | cons a l => simp [hfc]

theorem claim_C1_roundtrip_amended_witness :
    runMain envW (.ok "[\x7b\"a\":1,\"b\":null\x7d,\x7b\"b\":true,\"a\":\"hi\"\x7d]") =
      .done (writeCsv [["a", "b"], ["1", ""], ["hi", "True"]])
        "✅ Exported 2 clauses to lcl-export.csv" ∧
    countCRLF (writeCsv [["a", "b"], ["1", ""], ["hi", "True"]]).data = 3 ∧
    parseCsv (writeCsv [["a", "b"], ["1", ""], ["hi", "True"]])
      = [["a", "b"], ["1", ""], ["hi", "True"]] := by
  have h := claim_C1_roundtrip_amended envW "https://demo.supabase.co" "servicekey" rfl
    "[\x7b\"a\":1,\"b\":null\x7d,\x7b\"b\":true,\"a\":\"hi\"\x7d]"
    [("a", .intV 1), ("b", .noneV)] [[("b", .boolV true), ("a", .strV "hi")]]
    rfl (by decide) (by simp)
    (by
      intro kvs hkvs key
      rcases List.mem_cons.mp hkvs with h1 | h1
      · subst h1
        exact Iff.rfl
      · rcases List.mem_cons.mp h1 with h2 | h2
        · subst h2
          constructor
          · intro hm
            rcases List.mem_cons.mp hm with h3 | h3
            · simp [h3]
            · rcases List.mem_cons.mp h3 with h4 | h4
              · simp [h4]
              · simp at h4
          · intro hm
            rcases List.mem_cons.mp hm with h3 | h3
            · simp [h3]
            · rcases List.mem_cons.mp h3 with h4 | h4
              · simp [h4]
              · simp at h4
        · simp at h2)
    (by decide) (by decide)
  exact h

/-- C6: for every valid configuration whose base URL has the form
`scheme://host` (no path), the single request is a GET to
`{base_url}/rest/v1/legal_clause_library` whose query decodes to exactly
`select` = the 13 named fields in the stated order and `limit` = `2000`, with
headers `apikey` and `Authorization: Bearer` both carrying the service
credential, `Accept: application/json`, `Range-Unit: items` and
`Range: 0-1999`. -/
theorem claim_C6_request (base key : String) (sch host : List Char)
    (hsp : splitScheme base.data = some (sch, host))
    (hhost : host.takeWhile (fun c => c ≠ '/') = host)
    (hbase : base = (⟨sch⟩ : String) ++ "://" ++ (⟨host⟩ : String)) :
    (buildRequest base key).method = "GET" ∧
    (buildRequest base key).url =
      base ++ "/rest/v1/legal_clause_library" ++ "?" ++ urlencode queryParams ∧
    decodeQuery (urlencode queryParams) =
      [("select", String.intercalate "," selectFields), ("limit", "2000")] ∧
    selectFields.length = 13 ∧
    (buildRequest base key).headers =
      [("apikey", key), ("Authorization", "Bearer " ++ key),
       ("Accept", "application/json"), ("Range-Unit", "items"),
       ("Range", "0-1999")] := by
  refine ⟨rfl, ?_, by decide, by decide, rfl⟩
  show urljoinAbsPath base "/rest/v1/legal_clause_library" ++ "?" ++ urlencode queryParams
    = _
  rw [urljoin_base base sch host hsp hhost hbase]

theorem claim_C6_request_witness :
    (buildRequest "https://demo.supabase.co" "servicekey").method = "GET" ∧
    (buildRequest "https://demo.supabase.co" "servicekey").url =
      "https://demo.supabase.co" ++ "/rest/v1/legal_clause_library" ++ "?"
        ++ urlencode queryParams ∧
    decodeQuery (urlencode queryParams) =
      [("select", String.intercalate "," selectFields), ("limit", "2000")] ∧
    selectFields.length = 13 ∧
    (buildRequest "https://demo.supabase.co" "servicekey").headers =
      [("apikey", "servicekey"), ("Authorization", "Bearer " ++ "servicekey"),
       ("Accept", "application/json"), ("Range-Unit", "items"),
       ("Range", "0-1999")] :=
  claim_C6_request "https://demo.supabase.co" "servicekey" "https".data
    "demo.supabase.co".data rfl rfl rfl

/-- C7 counterexample: for the response `[{"a":{"b":"c"}}]` the CSV cell for
field `a` is `{'b': 'c'}` — Python's `str()`/`repr` of the parsed dict, with
single quotes — which is neither the remote service's JSON text for that
value (`{"b":"c"}` as sent, nor the `json.dumps` form `{"b": "c"}`): the
value is parsed and re-serialized, not embedded unparsed. -/
theorem claim_C7_container_counterexample :
    runMain envW (.ok "[\x7b\"a\":\x7b\"b\":\"c\"\x7d\x7d]") =
      .done "a\r\n\x7b'b': 'c'\x7d\r\n" "✅ Exported 1 clauses to lcl-export.csv" ∧
    parseCsv "a\r\n\x7b'b': 'c'\x7d\r\n" = [["a"], ["\x7b'b': 'c'\x7d"]] ∧
    "\x7b'b': 'c'\x7d" ≠ jsonTextRepr (.dictV [("b", .strV "c")]) ∧
    "\x7b'b': 'c'\x7d" ≠ "\x7b\"b\":\"c\"\x7d" := by
  refine ⟨rfl, rfl, by decide, by decide⟩

/-- C7 amended: an array- or object-valued field is serialized as Python's
`repr` of the parsed value (single-quoted strings, `", "` separators), not as
the remote service's JSON text; under the same conditions as the round-trip
theorem the re-parsed CSV reproduces exactly these `repr` strings. -/
theorem claim_C7_container_amended (e : Env) (u k : String)
    (hc : configOk e = some (u, k)) (body : String)
    (kvs0 : List (String × PyVal)) (krest : List (List (String × PyVal)))
    (hj : jsonLoads body = some (.listV ((kvs0 :: krest).map PyVal.dictV)))
    (hsub : ∀ kvs ∈ kvs0 :: krest, ∀ kv ∈ kvs, kv.1 ∈ kvs0.map Prod.fst) :
    runMain e (.ok body) =
      .done (writeCsv ((kvs0.map Prod.fst) ::
          (kvs0 :: krest).map (fun kvs => (kvs0.map Prod.fst).map (cellOf kvs))))
        ("✅ Exported " ++ toString (krest.length + 1) ++ " clauses to "
          ++ (match e.argv.get? 1 with | some p => p | none => "lcl-export.csv")) ∧
    (∀ kvs : List (String × PyVal), ∀ key v, assocGet kvs key = some v →
      isContainer v = true → cellOf kvs key = pyRepr v) := by
  refine ⟨export_ok e u k hc body kvs0 krest hj hsub, ?_⟩
  intro kvs key v hget hcont
  unfold cellOf
  rw [hget]
  cases v with
  | listV xs => rfl
  | dictV kvs2 => rfl
  | noneV => simp [isContainer] at hcont
  | boolV b => simp [isContainer] at hcont
  | intV n => simp [isContainer] at hcont
  | strV s => simp [isContainer] at hcont

theorem claim_C7_container_amended_witness :
    runMain envW (.ok "[\x7b\"a\":\x7b\"b\":\"c\"\x7d,\"t\":[1,2]\x7d]") =
      .done (writeCsv [["a", "t"], ["\x7b'b': 'c'\x7d", "[1, 2]"]])
        "✅ Exported 1 clauses to lcl-export.csv" ∧
    cellOf [("a", .dictV [("b", .strV "c")])] "a" = pyRepr (.dictV [("b", .strV "c")]) := by
  have h := claim_C7_container_amended envW "https://demo.supabase.co" "servicekey" rfl
    "[\x7b\"a\":\x7b\"b\":\"c\"\x7d,\"t\":[1,2]\x7d]"
    [("a", .dictV [("b", .strV "c")]), ("t", .listV [.intV 1, .intV 2])] [] rfl
    (by
      intro kvs hkvs kv hkv
      rcases List.mem_cons.mp hkvs with h1 | h1
      · subst h1
        rcases List.mem_cons.mp hkv with h2 | h2
        · rw [h2]
          simp
        · rcases List.mem_cons.mp h2 with h3 | h3
          · rw [h3]
            simp
          · simp at h3
      · simp at h1)
  exact ⟨h.1, h.2 [("a", .dictV [("b", .strV "c")])] "a" (.dictV [("b", .strV "c")]) rfl rfl⟩
